import Mathlib

set_option maxRecDepth 100000

/- Verification development for the card-generation and export core of the
   Anki-Card-Writing-Assistant repository.  The definitions below are a
   shallow embedding of `src/core/card_generator.py`,
   `src/core/unified_exporter.py` and `src/templates/template_manager.py`.
   Python strings are modelled as Lean `String` (a structure holding a list
   of characters, i.e. Unicode code points) or directly as `List Char`;
   Python dicts with string keys are modelled as association lists in
   insertion order, matching Python's ordered-dict semantics. -/

/-- Literal left brace character (code point 123). -/
def lbrace : Char := Char.ofNat 123

/-- Literal right brace character (code point 125). -/
def rbrace : Char := Char.ofNat 125

/-- Decimal digit characters of a natural number. -/
def natChars (n : Nat) : List Char := Nat.toDigits 10 n

/-- First value bound to key `k` in an association list, or `dflt` when the
key is absent; this models Python's `dict.get(k, dflt)`. -/
def lookupD (d : List (String × String)) (k dflt : String) : String :=
  match d.lookup k with
  | some v => v
  | none => dflt

/-- `template_manager.py` — `TemplateField` dataclass. -/
structure TemplateField where
  name : String
  required : Bool := true
  default_value : String := ""
  description : String := ""
deriving DecidableEq

/-- `template_manager.py` — `AnkiTemplate` dataclass. -/
structure AnkiTemplate where
  name : String
  description : String
  fields : List TemplateField
  front_template : String
  back_template : String
  css : String
  is_cloze : Bool := false
  cloze_fields : Option (List String) := none
deriving DecidableEq

/-- One element of the `clozes` array of the LLM's structured cloze
response (`card_generator.py` schema: `id`, `text`, optional `hint`); the
rewriter additionally reads an optional `position` entry via
`x.get("position", 0)`. -/
structure ClozeSpan where
  id : Nat
  text : String
  hint : Option String := none
  position : Option Nat := none
deriving DecidableEq

/-- `cloze_meta` dictionary retained on a cloze card
(`CardGenerator._create_cloze_card`). -/
structure ClozeMeta where
  clozes : List ClozeSpan
  original_content : String
deriving DecidableEq

/-- `card_generator.py` — `CardData` dataclass, with `fields` as an
insertion-ordered association list. -/
structure CardData where
  front : String
  back : String
  deck : String
  tags : List String
  model : String
  fields : List (String × String)
  cloze_data : Option ClozeMeta := none
deriving DecidableEq

/-- One item of the structured cloze response consumed by
`_create_cloze_card` (keys `content`, `tags`, `deck`, optional `clozes`;
`card_data.get("back", "")` is also read by the field builder). -/
structure ClozeCardItem where
  content : String := ""
  tags : List String := []
  deck : String := ""
  clozes : Option (List ClozeSpan) := none
  back : Option String := none
deriving DecidableEq

/-- `card_generator.py` — `GenerationConfig` dataclass (sampling parameters
omitted: they are opaque floats passed through to the LLM client). -/
structure GenerationConfig where
  template_name : String
  prompt_type : String
  card_count : Nat := 1
  custom_deck_name : Option String := none
  difficulty : String := "medium"
deriving DecidableEq

/-- `TemplateManager._load_quizify_templates` — the registered "Quizify"
template; the css and the two render strings are read from template files
that are not part of the Python sources, so they are parameters here. -/
def quizifyTemplate (css front back : String) : AnkiTemplate :=
  { name := "Quizify"
    description := "Quizify风格的问答卡片模板，支持多种交互功能"
    fields := [
      { name := "Front", required := true, default_value := "", description := "卡片正面内容" },
      { name := "Back", required := false, default_value := "", description := "卡片背面内容" },
      { name := "Deck", required := true, default_value := "", description := "牌组名称" },
      { name := "Tags", required := false, default_value := "", description := "标签" }]
    front_template := front
    back_template := back
    css := css
    is_cloze := false }

/-- `TemplateManager._load_enhanced_cloze_templates` — the registered
"Enhanced Cloze" template (again with file contents as parameters). -/
def enhancedClozeTemplate (css front back : String) : AnkiTemplate :=
  { name := "Enhanced Cloze"
    description := "增强填空模板，支持提示、动画等高级功能"
    fields := [
      { name := "Content", required := true, default_value := "", description := "包含填空的内容" },
      { name := "Back Extra", required := false, default_value := "", description := "背面额外内容" },
      { name := "Deck", required := true, default_value := "", description := "牌组名称" },
      { name := "Tags", required := false, default_value := "", description := "标签" },
      { name := "Cloze99", required := false, default_value := "", description := "AnkiDroid兼容字段" }]
    front_template := front
    back_template := back
    css := css
    is_cloze := true
    cloze_fields := some ["Content"] }

/-- `" ".join(tags)`. -/
def joinTags (tags : List String) : String := String.intercalate " " tags

/-- `CardFieldBuilder._build_cloze_fields`. -/
def build_cloze_fields (template_name : String) (content : String)
    (card_data : ClozeCardItem) (deck_name tags_str : String) :
    List (String × String) :=
  if template_name = "Quizify Enhanced Cloze" then
    [("Content", content), ("Back Extra", card_data.back.getD ""),
     ("Deck", deck_name), ("Tags", tags_str), ("Cloze99", "")]
  else
    [("Text", content), ("Back Extra", card_data.back.getD ""),
     ("Deck", deck_name), ("Tags", tags_str)]

/-- `CardFieldBuilder._build_quizify_fields`. -/
def build_quizify_fields (content : String) (card_data : ClozeCardItem)
    (deck_name tags_str : String) : List (String × String) :=
  [("Front", content), ("Back", card_data.back.getD ""),
   ("Deck", deck_name), ("Tags", tags_str)]

/-- `CardFieldBuilder._build_standard_fields`. -/
def build_standard_fields (content deck_name tags_str : String) :
    List (String × String) :=
  [("Front", content), ("Back", content),
   ("Deck", deck_name), ("Tags", tags_str)]

/-- `CardFieldBuilder.build_fields`; `getattr(template, 'name', '')` and
`getattr(template, 'is_cloze', False)` make a missing template behave as an
object with empty name and a false cloze flag, hence the `Option`. -/
def build_fields (template : Option AnkiTemplate) (cloze_content : String)
    (card_data : ClozeCardItem) (deck_name : String) :
    List (String × String) :=
  let template_name := match template with
    | some t => t.name
    | none => ""
  let is_cloze := match template with
    | some t => t.is_cloze
    | none => false
  let tags_str := joinTags card_data.tags
  if is_cloze then
    build_cloze_fields template_name cloze_content card_data deck_name tags_str
  else if template_name = "Quizify" then
    build_quizify_fields cloze_content card_data deck_name tags_str
  else
    build_standard_fields cloze_content deck_name tags_str

/-- `BatchCardGenerator.generate_batch` — sequentially runs the card
generator over the content chunks; a chunk whose generation raises is
logged and skipped (`except Exception: continue`), everything else is
appended in order.  The per-chunk generator (which awaits the external
LLM collaborator) is a parameter returning `Except`.  The source's extra
`isinstance(cards[0], CardData)` guard is vacuous in this typed model. -/
def generate_batch {E : Type} (generate_cards : String → Except E (List CardData))
    (contents : List String) : List CardData :=
  contents.foldl (fun all_cards content =>
    match generate_cards content with
    | .ok cards => all_cards ++ cards
    | .error _ => all_cards) []

/-- `ExportConstants.FORMAT_METHODS` — the supported export formats
(dict keys; the mapped method names are resolved by `getattr` and are not
needed here). -/
def FORMAT_METHODS : List String := ["json", "csv", "apkg", "txt", "html"]

/-- Python `dict[k] = v` on an insertion-ordered association list:
an existing key keeps its position and gets the new value, a new key is
appended. -/
def dictInsert (d : List (String × String)) (k v : String) :
    List (String × String) :=
  if d.any (fun p => p.1 = k) then
    d.map (fun p => if p.1 = k then (k, v) else p)
  else d ++ [(k, v)]

/-- `UnifiedExporter.export_multiple_formats` — per requested format:
formats outside `FORMAT_METHODS` are silently ignored, and a format whose
serialization raises is logged and omitted (`except Exception`), the loop
continuing with the remaining formats.  The per-format serialization
(building the file and returning its path) is the parameter `attempt`. -/
def export_multiple_formats {E : Type} (attempt : String → Except E String)
    (formats : List String) : List (String × String) :=
  formats.foldl (fun export_paths format_type =>
    if format_type ∈ FORMAT_METHODS then
      match attempt format_type with
      | .ok p => dictInsert export_paths format_type p
      | .error _ => export_paths
    else export_paths) []

/- ===== MD5 (RFC 1321), the `hashlib.md5` collaborator used by the
   Identifier Deriver in `unified_exporter.py`.  Messages are byte lists;
   `utf8Bytes` models Python's `str.encode()`. ===== -/

/-- MD5 per-round left-rotation amounts (RFC 1321). -/
def md5S : List Nat :=
  [7, 12, 17, 22, 7, 12, 17, 22, 7, 12, 17, 22, 7, 12, 17, 22,
   5, 9, 14, 20, 5, 9, 14, 20, 5, 9, 14, 20, 5, 9, 14, 20,
   4, 11, 16, 23, 4, 11, 16, 23, 4, 11, 16, 23, 4, 11, 16, 23,
   6, 10, 15, 21, 6, 10, 15, 21, 6, 10, 15, 21, 6, 10, 15, 21]

/-- MD5 sine-derived additive constants (RFC 1321). -/
def md5K : List Nat :=
  [0xd76aa478, 0xe8c7b756, 0x242070db, 0xc1bdceee,
   0xf57c0faf, 0x4787c62a, 0xa8304613, 0xfd469501,
   0x698098d8, 0x8b44f7af, 0xffff5bb1, 0x895cd7be,
   0x6b901122, 0xfd987193, 0xa679438e, 0x49b40821,
   0xf61e2562, 0xc040b340, 0x265e5a51, 0xe9b6c7aa,
   0xd62f105d, 0x02441453, 0xd8a1e681, 0xe7d3fbc8,
   0x21e1cde6, 0xc33707d6, 0xf4d50d87, 0x455a14ed,
   0xa9e3e905, 0xfcefa3f8, 0x676f02d9, 0x8d2a4c8a,
   0xfffa3942, 0x8771f681, 0x6d9d6122, 0xfde5380c,
   0xa4beea44, 0x4bdecfa9, 0xf6bb4b60, 0xbebfbc70,
   0x289b7ec6, 0xeaa127fa, 0xd4ef3085, 0x04881d05,
   0xd9d4d039, 0xe6db99e5, 0x1fa27cf8, 0xc4ac5665,
   0xf4292244, 0x432aff97, 0xab9423a7, 0xfc93a039,
   0x655b59c3, 0x8f0ccc92, 0xffeff47d, 0x85845dd1,
   0x6fa87e4f, 0xfe2ce6e0, 0xa3014314, 0x4e0811a1,
   0xf7537e82, 0xbd3af235, 0x2ad7d2bb, 0xeb86d391]

/-- MD5 round functions F, G, H, I on 32-bit words (a word `w < 2 ^ 32`
has bitwise complement `0xffffffff - w`). -/
def md5F (i b c d : Nat) : Nat :=
  if i < 16 then Nat.lor (Nat.land b c) (Nat.land (0xffffffff - b) d)
  else if i < 32 then Nat.lor (Nat.land d b) (Nat.land (0xffffffff - d) c)
  else if i < 48 then Nat.xor b (Nat.xor c d)
  else Nat.xor c (Nat.lor b (0xffffffff - d))

/-- MD5 message-word index schedule. -/
def md5G (i : Nat) : Nat :=
  if i < 16 then i
  else if i < 32 then (5 * i + 1) % 16
  else if i < 48 then (3 * i + 5) % 16
  else (7 * i) % 16

/-- 32-bit left rotation. -/
def rotl32 (x n : Nat) : Nat := (x * 2 ^ n) % 2 ^ 32 + x / 2 ^ (32 - n)

/-- One MD5 round on state `(a, b, c, d)` with message block `M`. -/
def md5Round (M : List Nat) (st : Nat × Nat × Nat × Nat) (i : Nat) :
    Nat × Nat × Nat × Nat :=
  let f := (md5F i st.2.1 st.2.2.1 st.2.2.2 + st.1
            + md5K.getD i 0 + M.getD (md5G i) 0) % 2 ^ 32
  (st.2.2.2, (st.2.1 + rotl32 f (md5S.getD i 0)) % 2 ^ 32, st.2.1, st.2.2.1)

/-- 64 MD5 rounds over one 16-word block, plus the feed-forward sums. -/
def md5Chunk (st : Nat × Nat × Nat × Nat) (M : List Nat) :
    Nat × Nat × Nat × Nat :=
  let r := (List.range 64).foldl (md5Round M) st
  ((st.1 + r.1) % 2 ^ 32, (st.2.1 + r.2.1) % 2 ^ 32,
   (st.2.2.1 + r.2.2.1) % 2 ^ 32, (st.2.2.2 + r.2.2.2) % 2 ^ 32)

/-- Little-endian 8-byte encoding of a 64-bit value. -/
def word64LE (n : Nat) : List Nat :=
  [n % 256, n / 2 ^ 8 % 256, n / 2 ^ 16 % 256, n / 2 ^ 24 % 256,
   n / 2 ^ 32 % 256, n / 2 ^ 40 % 256, n / 2 ^ 48 % 256, n / 2 ^ 56 % 256]

/-- MD5 padding: a 0x80 byte, zeros to 56 mod 64, then the bit length. -/
def md5Pad (msg : List Nat) : List Nat :=
  msg ++ [0x80] ++ List.replicate ((119 - msg.length % 64) % 64) 0
      ++ word64LE (8 * msg.length % 2 ^ 64)

/-- Bytes to little-endian 32-bit words (the padded length is a multiple
of 64 so no partial group arises). -/
def bytesToWordsLE : List Nat → List Nat
  | b0 :: b1 :: b2 :: b3 :: rest =>
    (b0 + b1 * 256 + b2 * 65536 + b3 * 16777216) :: bytesToWordsLE rest
  | _ => []

/-- Words to 16-word blocks. -/
def md5Blocks : List Nat → List (List Nat)
  | w0 :: w1 :: w2 :: w3 :: w4 :: w5 :: w6 :: w7 ::
    w8 :: w9 :: w10 :: w11 :: w12 :: w13 :: w14 :: w15 :: rest =>
    [w0, w1, w2, w3, w4, w5, w6, w7, w8, w9, w10, w11, w12, w13, w14, w15]
      :: md5Blocks rest
  | _ => []

/-- The four 32-bit MD5 state words of a message. -/
def md5Words (msg : List Nat) : Nat × Nat × Nat × Nat :=
  (md5Blocks (bytesToWordsLE (md5Pad msg))).foldl md5Chunk
    (0x67452301, 0xefcdab89, 0x98badcfe, 0x10325476)

/-- Little-endian 4-byte encoding of a 32-bit word. -/
def wordLEBytes (w : Nat) : List Nat :=
  [w % 256, w / 256 % 256, w / 65536 % 256, w / 16777216 % 256]

/-- The 16-byte MD5 digest of a message. -/
def md5Digest (msg : List Nat) : List Nat :=
  let r := md5Words msg
  wordLEBytes r.1 ++ wordLEBytes r.2.1 ++ wordLEBytes r.2.2.1 ++ wordLEBytes r.2.2.2

/-- Lowercase hexadecimal digit. -/
def hexDigitChar (n : Nat) : Char :=
  if n < 10 then Char.ofNat (48 + n) else Char.ofNat (87 + n)

/-- `hashlib.md5(...).hexdigest()` — 32 lowercase hex characters. -/
def md5HexDigest (msg : List Nat) : List Char :=
  ((md5Digest msg).map
    (fun b => [hexDigitChar (b / 16), hexDigitChar (b % 16)])).flatten

/-- Value of a lowercase hex digit character. -/
def hexVal (c : Char) : Nat :=
  if c.toNat ≤ 57 then c.toNat - 48 else c.toNat - 87

/-- `int(cs, 16)` for lowercase hex strings. -/
def parseHex (cs : List Char) : Nat :=
  cs.foldl (fun acc c => acc * 16 + hexVal c) 0

/-- UTF-8 encoding of one code point (Python `str.encode()` per char). -/
def utf8EncodeChar (c : Char) : List Nat :=
  let n := c.toNat
  if n < 0x80 then [n]
  else if n < 0x800 then [0xc0 + n / 64, 0x80 + n % 64]
  else if n < 0x10000 then [0xe0 + n / 4096, 0x80 + n / 64 % 64, 0x80 + n % 64]
  else [0xf0 + n / 262144, 0x80 + n / 4096 % 64, 0x80 + n / 64 % 64, 0x80 + n % 64]

/-- Python `name.encode()` — UTF-8 bytes of a string. -/
def utf8Bytes (s : String) : List Nat := (s.data.map utf8EncodeChar).flatten

/-- `int(hashlib.md5(name.encode()).hexdigest()[:8], 16)` — the id
derivation used for unknown model names and for deck names. -/
def md5Name32 (name : String) : Nat :=
  parseHex ((md5HexDigest (utf8Bytes name)).take 8)

/-- The whole digest read as one big-endian integer, i.e.
`int(hexdigest(), 16)`. -/
def md5Int (msg : List Nat) : Nat :=
  (md5Digest msg).foldl (fun acc b => acc * 256 + b) 0

/-- `ExportConstants.MODEL_IDS` — the pre-registered model identifiers. -/
def MODEL_IDS : List (String × Nat) :=
  [("basic", 1607392319), ("basic_reversed", 1607392320),
   ("cloze", 1607392321), ("quizify_enhanced_cloze", 1607392322)]

/-- `ModelFactory.get_model_id`. -/
def get_model_id (model_name : String) : Nat :=
  match MODEL_IDS.lookup model_name with
  | some i => i
  | none => md5Name32 model_name

/- ===== Python string-replacement primitives (`str.replace`), modelled on
   `List Char`. ===== -/

/-- Carriage-return character. -/
def CRc : Char := '\r'

/-- Line-feed character. -/
def LFc : Char := '\n'

/-- Backslash character. -/
def BSLc : Char := '\\'

/-- Python `t in s` substring test. -/
def occursIn (t : List Char) : List Char → Bool
  | [] => t.isEmpty
  | c :: s => t.isPrefixOf (c :: s) || occursIn t s

/-- Python `s.replace(t, m, 1)`: replace the first (leftmost) occurrence
of `t` in `s` by `m`, if any. -/
def replaceFirst (t m : List Char) : List Char → List Char
  | [] => if t.isEmpty then m else []
  | c :: s =>
    if t.isPrefixOf (c :: s) then m ++ (c :: s).drop t.length
    else c :: replaceFirst t m s

/-- Worker for `replaceAll`: a positive skip count consumes characters
already accounted for by an emitted replacement. -/
def replaceAllSkip (t m : List Char) : Nat → List Char → List Char
  | _, [] => []
  | n + 1, _ :: s => replaceAllSkip t m n s
  | 0, c :: s =>
    if t.isPrefixOf (c :: s) ∧ t ≠ [] then
      m ++ replaceAllSkip t m (t.length - 1) s
    else c :: replaceAllSkip t m 0 s

/-- Python `s.replace(t, m)` for a nonempty needle `t`: left-to-right,
non-overlapping, the replacement text is not rescanned.  (All call sites
in the embedded code pass nonempty needles; for an empty needle this
returns `s` unchanged.) -/
def replaceAll (t m s : List Char) : List Char := replaceAllSkip t m 0 s

/-- `TextProcessor.normalize_newlines_for_anki`, character level:
CRLF and lone CR are normalized to LF, then literal backslash-n pairs are
unescaped to LF (guarded, as in the source, by a containment test), then
every LF becomes the `<br>` markup. -/
def normalizeChars (s : List Char) : List Char :=
  let s1 := replaceAll [CRc, LFc] [LFc] s
  let s2 := replaceAll [CRc] [LFc] s1
  let s3 := if occursIn [BSLc, 'n'] s2 then replaceAll [BSLc, 'n'] [LFc] s2 else s2
  if occursIn [LFc] s3 then replaceAll [LFc] ("<br>".data) s3 else s3

/-- `TextProcessor.normalize_newlines_for_anki` on strings. -/
def normalize_newlines_for_anki (text : String) : String :=
  ⟨normalizeChars text.data⟩

/-- The literal-escape representation of a text: every real newline
written as the two-character sequence backslash-n.  (Introduced to state
the spec's "either representation renders correctly".) -/
def escapeLF : List Char → List Char
  | [] => []
  | c :: s => if c = LFc then BSLc :: 'n' :: escapeLF s else c :: escapeLF s

/- ===== The genanki-facing layer of `unified_exporter.py`.  `Model`,
   `Note`, `Deck` are modelled by the data this core puts into them; the
   two mutable caches of an exporter instance form `ExporterState`. ===== -/

/-- One entry of a genanki `Model`'s `templates` list. -/
structure GTemplate where
  name : String
  qfmt : String
  afmt : String
deriving DecidableEq

/-- genanki `Model` as constructed by this core. -/
structure GModel where
  model_id : Nat
  name : String
  fields : List String
  templates : List GTemplate
  css : String
  model_type : Nat := 0
deriving DecidableEq

/-- genanki `Note` as constructed by this core. -/
structure GNote where
  model : GModel
  fields : List String
deriving DecidableEq

/-- genanki `Deck` as constructed by this core. -/
structure GDeck where
  deck_id : Nat
  name : String
  notes : List GNote
deriving DecidableEq

/-- The mutable per-instance state of a `UnifiedExporter`: the deck-id
cache `self.deck_ids` and the `ModelFactory`'s `self._model_cache`. -/
structure ExporterState where
  deck_ids : List (String × Nat) := []
  model_cache : List (String × GModel) := []
deriving DecidableEq

/-- `ExportConstants.BASIC_CSS`. -/
def BASIC_CSS : String :=
  "\n.card \x7b\n    font-family: arial;\n    font-size: 20px;\n    text-align: center;\n    color: black;\n    background-color: white;\n\x7d"

/-- `ExportConstants.CLOZE_CSS`. -/
def CLOZE_CSS : String :=
  "\n.card \x7b\n    font-family: arial;\n    font-size: 20px;\n    text-align: center;\n    color: black;\n    background-color: white;\n\x7d\n.cloze \x7b\n    font-weight: bold;\n    color: blue;\n\x7d"

/-- ASCII lowering (the model names this pipeline produces are compared
with the ASCII substring "cloze" after `str.lower()`). -/
def asciiLower (c : Char) : Char :=
  if 'A' ≤ c ∧ c ≤ 'Z' then Char.ofNat (c.toNat + 32) else c

/-- `name.lower()` restricted to its ASCII action. -/
def lowerStr (s : String) : String := ⟨s.data.map asciiLower⟩

/-- `ModelFactory.create_basic_model` with its model cache. -/
def create_basic_model (st : ExporterState) (model_name : String) :
    GModel × ExporterState :=
  match st.model_cache.lookup model_name with
  | some m => (m, st)
  | none =>
    let m : GModel :=
      { model_id := get_model_id model_name
        name := model_name
        fields := ["Front", "Back"]
        templates := [{ name := "卡片 1", qfmt := "\x7b\x7bFront\x7d\x7d",
                        afmt := "\x7b\x7bFrontSide\x7d\x7d\n\n<hr id=answer>\n\n\x7b\x7bBack\x7d\x7d" }]
        css := BASIC_CSS }
    (m, { st with model_cache := st.model_cache ++ [(model_name, m)] })

/-- `ModelFactory.create_cloze_model` with its model cache. -/
def create_cloze_model (st : ExporterState) (model_name : String) :
    GModel × ExporterState :=
  match st.model_cache.lookup model_name with
  | some m => (m, st)
  | none =>
    let m : GModel :=
      { model_id := get_model_id model_name
        name := model_name
        fields := ["Text", "Back Extra"]
        templates := [{ name := "Cloze", qfmt := "\x7b\x7bcloze:Text\x7d\x7d",
                        afmt := "\x7b\x7bcloze:Text\x7d\x7d<br>\x7b\x7bBack Extra\x7d\x7d" }]
        css := CLOZE_CSS }
    (m, { st with model_cache := st.model_cache ++ [(model_name, m)] })

/-- `ModelFactory.create_model_from_template`. -/
def create_model_from_template (st : ExporterState) (template : AnkiTemplate) :
    GModel × ExporterState :=
  match st.model_cache.lookup template.name with
  | some m => (m, st)
  | none =>
    let is_cloze := template.is_cloze
      || occursIn ("\x7b\x7bcloze:".data) template.front_template.data
    let m : GModel :=
      { model_id := get_model_id template.name
        name := template.name
        fields := template.fields.map TemplateField.name
        templates := [{ name := "卡片 1", qfmt := template.front_template,
                        afmt := template.back_template }]
        css := template.css
        model_type := if is_cloze then 1 else 0 }
    (m, { st with model_cache := st.model_cache ++ [(template.name, m)] })

/-- `ModelFactory.get_model_for_card`: dispatch on the substring "cloze"
in the lowered model name. -/
def get_model_for_card (st : ExporterState) (card : CardData) :
    GModel × ExporterState :=
  if occursIn ("cloze".data) (lowerStr card.model).data then
    create_cloze_model st card.model
  else create_basic_model st card.model

/-- `NoteFactory.create_note`. -/
def create_note (card : CardData) (model : GModel) : GNote :=
  if occursIn ("cloze".data) (lowerStr model.name).data then
    { model := model
      fields := [normalize_newlines_for_anki (lookupD card.fields "Text" ""),
                 normalize_newlines_for_anki (lookupD card.fields "Back Extra" "")] }
  else
    { model := model
      fields := [normalize_newlines_for_anki (lookupD card.fields "Front" ""),
                 normalize_newlines_for_anki (lookupD card.fields "Back" "")] }

/-- The `field_mapping` dictionary of `NoteFactory.create_note_from_template`. -/
def fieldMappingValue (card : CardData) (name : String) : Option String :=
  if name = "Front" then some (lookupD card.fields "Front" card.front)
  else if name = "Back" then some (lookupD card.fields "Back" card.back)
  else if name = "Text" then some (lookupD card.fields "Text" card.front)
  else if name = "Content" then some (lookupD card.fields "Content" card.front)
  else if name = "Back Extra" then some (lookupD card.fields "Back Extra" card.back)
  else if name = "Cloze99" then some ""
  else if name = "Deck" then some card.deck
  else if name = "Tags" then some (joinTags card.tags)
  else none

/-- The per-field value selected by `create_note_from_template` before
newline normalization: the `field_mapping` entry when the field name is
known, else `card.fields.get(name, default_value)`. -/
def rawFieldValue (card : CardData) (f : TemplateField) : String :=
  match fieldMappingValue card f.name with
  | some v => v
  | none => lookupD card.fields f.name f.default_value

/-- `NoteFactory.create_note_from_template`: one value per declared
template field, each normalized by `normalize_newlines_for_anki` before
insertion.  (The source's `field_value is None` branch is dead in this
typed model: every extractor and default yields a string.) -/
def create_note_from_template (card : CardData) (model : GModel)
    (template : AnkiTemplate) : GNote :=
  { model := model
    fields := template.fields.foldl (fun acc f =>
      acc ++ [normalize_newlines_for_anki (rawFieldValue card f)]) [] }

/-- `UnifiedExporter._get_deck_id` with the per-instance cache. -/
def get_deck_id (st : ExporterState) (deck_name : String) :
    Nat × ExporterState :=
  match st.deck_ids.lookup deck_name with
  | some i => (i, st)
  | none =>
    let i := md5Name32 deck_name
    (i, { st with deck_ids := st.deck_ids ++ [(deck_name, i)] })

/-- `UnifiedExporter._create_model_and_note`: an available registry
template wins, else the built-in plain/cloze model inferred from the
model name.  The template manager may itself be absent (`None`). -/
def create_model_and_note (tm : Option (String → Option AnkiTemplate))
    (st : ExporterState) (card : CardData) (template_name : String) :
    (GModel × GNote) × ExporterState :=
  match tm with
  | some get_template =>
    match get_template template_name with
    | some template =>
      let r := create_model_from_template st template
      ((r.1, create_note_from_template card r.1 template), r.2)
    | none =>
      let r := get_model_for_card st card
      ((r.1, create_note card r.1), r.2)
  | none =>
    let r := get_model_for_card st card
    ((r.1, create_note card r.1), r.2)

/-- The deck-grouping step of `_create_decks_from_cards`: Python dict
insertion — append the card to an existing deck bucket or open a new
one. -/
def addToGroup (groups : List (String × List CardData)) (card : CardData) :
    List (String × List CardData) :=
  if groups.any (fun g => g.1 = card.deck) then
    groups.map (fun g => if g.1 = card.deck then (g.1, g.2 ++ [card]) else g)
  else groups ++ [(card.deck, [card])]

/-- `deck_groups` — the insertion-ordered grouping of cards by deck name. -/
def deck_groups (cards : List CardData) : List (String × List CardData) :=
  cards.foldl addToGroup []

/-- The inner note loop of `_create_decks_from_cards`: one note per card
of a deck bucket, `template_name or card.model` choosing the effective
template (Python `or`: an absent or empty override falls back). -/
def build_deck_notes (tm : Option (String → Option AnkiTemplate))
    (template_name : Option String) (st : ExporterState)
    (deck_cards : List CardData) : List GNote × ExporterState :=
  deck_cards.foldl (fun acc card =>
    let effective := match template_name with
      | some t => if t = "" then card.model else t
      | none => card.model
    let r := create_model_and_note tm acc.2 card effective
    (acc.1 ++ [r.1.2], r.2)) ([], st)

/-- `UnifiedExporter._create_decks_from_cards`. -/
def create_decks_from_cards (tm : Option (String → Option AnkiTemplate))
    (template_name : Option String) (cards : List CardData)
    (st : ExporterState) : List GDeck × ExporterState :=
  (deck_groups cards).foldl (fun acc g =>
    let r1 := get_deck_id acc.2 g.1
    let r2 := build_deck_notes tm template_name r1.2 g.2
    (acc.1 ++ [{ deck_id := r1.1, name := g.1, notes := r2.1 }], r2.2)) ([], st)

/-- One public operation of a `UnifiedExporter` instance that can touch
the deck-id cache (the file-dump exports never do). -/
inductive ExporterOp where
  | deckId (name : String)
  | createDecks (tm : Option (String → Option AnkiTemplate))
      (template_name : Option String) (cards : List CardData)

/-- Effect of one operation on the exporter state. -/
def runOp (st : ExporterState) : ExporterOp → ExporterState
  | .deckId name => (get_deck_id st name).2
  | .createDecks tm tn cards => (create_decks_from_cards tm tn cards st).2

/-- Effect of a sequence of operations. -/
def runOps (st : ExporterState) (ops : List ExporterOp) : ExporterState :=
  ops.foldl runOp st

/-- Invariant of the grouping fold: keys are distinct and every bucket is
exactly the filter of the processed cards by its deck name. -/
def GroupsInv (cards : List CardData)
    (groups : List (String × List CardData)) : Prop :=
  (groups.map Prod.fst).Nodup ∧
  ∀ n : String, groups.lookup n =
    if cards.any (fun c => c.deck = n) then
      some (cards.filter (fun c => c.deck = n)) else none

def fiveCards : List CardData :=
  [{ front := "f1", back := "b1", deck := "DeckA", tags := [], model := "basic",
     fields := [("Front", "f1"), ("Back", "b1")] },
   { front := "f2", back := "b2", deck := "DeckB", tags := [], model := "basic",
     fields := [("Front", "f2"), ("Back", "b2")] },
   { front := "f3", back := "b3", deck := "DeckA", tags := [], model := "basic",
     fields := [("Front", "f3"), ("Back", "b3")] },
   { front := "f4", back := "b4", deck := "DeckB", tags := [], model := "basic",
     fields := [("Front", "f4"), ("Back", "b4")] },
   { front := "f5", back := "b5", deck := "DeckA", tags := [], model := "basic",
     fields := [("Front", "f5"), ("Back", "b5")] }]

/- ===== Cloze rewriting (`ClozeProcessor`) and card synthesis
   (`CardGenerator._create_cloze_card`, `validate_card`). ===== -/

/-- `x.get("position", 0)` — the sort key of a cloze span. -/
def posKey (c : ClozeSpan) : Nat := c.position.getD 0

/-- The Anki cloze marker emitted for one span:
`\x7b\x7bc<id>::<text>\x7d\x7d`, or with `::<hint>` before the closing
braces when a nonempty hint is present (`if hint:` — Python truthiness). -/
def clozeMarker (c : ClozeSpan) : List Char :=
  let hint := c.hint.getD ""
  if hint = "" then
    ("\x7b\x7bc".data) ++ natChars c.id ++ ("::".data) ++ c.text.data
      ++ ("\x7d\x7d".data)
  else
    ("\x7b\x7bc".data) ++ natChars c.id ++ ("::".data) ++ c.text.data
      ++ ("::".data) ++ hint.data ++ ("\x7d\x7d".data)

/-- `sorted(clozes, key=lambda x: x.get("position", 0), reverse=True)` —
a stable sort by descending position (insertion sort with the total
preorder "later position first" is extensionally the unique stable
descending sort, which is what Python's Timsort computes). -/
def sortClozesDesc (clozes : List ClozeSpan) : List ClozeSpan :=
  List.insertionSort (fun a b => posKey b ≤ posKey a) clozes

/-- `ClozeProcessor.process_cloze_content`: spans sorted by descending
position, one first-occurrence replacement per span. -/
def process_cloze_content (content : String) (clozes : List ClozeSpan) :
    String :=
  if clozes.isEmpty then content
  else
    ⟨(sortClozesDesc clozes).foldl
      (fun acc c => replaceFirst c.text.data (clozeMarker c) acc) content.data⟩

/-- One starting position of the regex `\x5c\x7b\x5c\x7b[^\x7b\x7d]+\x5c\x7d\x5c\x7d`:
two left braces, a maximal nonempty run of non-brace characters (the
character ending the run must be a brace, so the existential over the
quantifier's length collapses to the maximal run), then two right
braces. -/
def clozeSpanAt : List Char → Bool
  | a :: b :: rest =>
    decide (a = lbrace) && decide (b = lbrace) &&
      (let run := rest.takeWhile (fun x => !(decide (x = lbrace) || decide (x = rbrace)))
       !run.isEmpty &&
         (match rest.drop run.length with
          | x :: y :: _ => decide (x = rbrace) && decide (y = rbrace)
          | _ => false))
  | _ => false

/-- `re.search` of the above pattern: a match starting at any suffix. -/
def hasEnhancedClozeSpan : List Char → Bool
  | [] => false
  | c :: s => clozeSpanAt (c :: s) || hasEnhancedClozeSpan s

/-- `ClozeProcessor.validate_cloze_format`: an enhanced-cloze
`\x7b\x7b...\x7d\x7d` placeholder or a "more content" block marker. -/
def validate_cloze_format (content : String) : Bool :=
  if hasEnhancedClozeSpan content.data then true
  else if occursIn ("[[更多内容::".data) content.data then true
  else false

/-- `CardGenerator.validate_card`. -/
def validate_card (card : CardData) : Bool :=
  if card.front = "" ∨ card.back = "" then false
  else if card.deck = "" then false
  else if card.cloze_data.isSome ∧ validate_cloze_format card.front = false then
    false
  else true

/-- `CardGenerator._create_cloze_card` (the template argument is the
already-resolved registry template, never `None` on this path). -/
def create_cloze_card (card_data : ClozeCardItem) (template : AnkiTemplate)
    (config : GenerationConfig) : CardData :=
  let content := card_data.content
  let processed : String × Option ClozeMeta :=
    match card_data.clozes with
    | some cl =>
      if cl.isEmpty then (content, none)
      else (process_cloze_content content cl,
            some { clozes := cl, original_content := content })
    | none => (content, none)
  let cloze_content := processed.1
  let deck_name := match config.custom_deck_name with
    | some d => if d = "" then card_data.deck else d
    | none => card_data.deck
  let fields := build_fields (some template) cloze_content card_data deck_name
  let is_quizify := template.name = "Quizify"
  let is_cloze := template.is_cloze
  { front := cloze_content
    back := if is_quizify ∧ is_cloze = false then "" else cloze_content
    deck := deck_name
    tags := card_data.tags
    model := template.name
    fields := fields
    cloze_data := processed.2 }

/- ===== CSV export (`FileExporter.export_to_csv`). ===== -/

/-- Python string `<=`: lexicographic comparison by code point. -/
def charListLe : List Char → List Char → Bool
  | [], _ => true
  | _ :: _, [] => false
  | a :: as, b :: bs =>
    if a.toNat < b.toNat then true
    else if b.toNat < a.toNat then false
    else charListLe as bs

/-- Python `a <= b` on strings. -/
def strLeB (a b : String) : Bool := charListLe a.data b.data

instance : IsTotal String (fun a b => strLeB a b = true) := by
  constructor
  intro s₁ s₂
  show charListLe s₁.data s₂.data = true ∨ charListLe s₂.data s₁.data = true
  generalize s₁.data = a
  generalize s₂.data = b
  induction a generalizing b with
  | nil => exact Or.inl rfl
  | cons x xs ih =>
    rcases b with _ | ⟨y, ys⟩
    · exact Or.inr rfl
    · rw [charListLe, charListLe]
      by_cases h1 : x.toNat < y.toNat
      · left; rw [if_pos h1]
      · by_cases h2 : y.toNat < x.toNat
        · right; rw [if_pos h2]
        · rw [if_neg h1, if_neg h2, if_neg h2, if_neg h1]
          exact ih ys

instance : IsTrans String (fun a b => strLeB a b = true) := by
  constructor
  intro s₁ s₂ s₃
  show charListLe s₁.data s₂.data = true → charListLe s₂.data s₃.data = true →
    charListLe s₁.data s₃.data = true
  generalize s₁.data = a
  generalize s₂.data = b
  generalize s₃.data = c
  induction a generalizing b c with
  | nil => intro _ _; rfl
  | cons x xs ih =>
    intro hab hbc
    rcases b with _ | ⟨y, ys⟩
    · rw [charListLe] at hab; cases hab
    · rcases c with _ | ⟨z, zs⟩
      · rw [charListLe] at hbc; cases hbc
      · rw [charListLe] at hab hbc ⊢
        by_cases h1 : x.toNat < y.toNat
        · by_cases h2 : y.toNat < z.toNat
          · rw [if_pos (by omega : x.toNat < z.toNat)]
          · by_cases h3 : z.toNat < y.toNat
            · rw [if_pos h3] at hbc
              rw [if_neg h2] at hbc
              cases hbc
            · rw [if_pos (by omega : x.toNat < z.toNat)]
        · by_cases h4 : y.toNat < x.toNat
          · rw [if_neg h1, if_pos h4] at hab
            cases hab
          · by_cases h2 : y.toNat < z.toNat
            · rw [if_pos (by omega : x.toNat < z.toNat)]
            · by_cases h3 : z.toNat < y.toNat
              · rw [if_neg h2, if_pos h3] at hbc
                cases hbc
              · rw [if_neg (by omega : ¬ x.toNat < z.toNat),
                  if_neg (by omega : ¬ z.toNat < x.toNat)]
                rw [if_neg h1, if_neg h4] at hab
                rw [if_neg h2, if_neg h3] at hbc
                exact ih ys zs hab hbc

/-- The sorted union of all field names of all cards: the Python
`set().update(card.fields.keys())` loop followed by `sorted(...)`.  (Any
duplicate-free enumeration of the set gives the same sorted list, since
the code-point order is antisymmetric.) -/
def csvFieldNames (cards : List CardData) : List String :=
  List.insertionSort (fun a b => strLeB a b = true)
    ((cards.map (fun c => c.fields.map Prod.fst)).flatten).dedup

/-- `FileExporter.export_to_csv` as the list of rows written: one
`writerow` call per element — the three directives form the cells of the
FIRST row, the sorted field-name header is the second row, then one row
per card with `card.fields.get(field, '')` per header column. -/
def export_to_csv_rows (cards : List CardData) : List (List String) :=
  let field_names := csvFieldNames cards
  [["#separator:tab", "#html:true", "#tags column:4"], field_names]
    ++ cards.map (fun card => field_names.map (fun f => lookupD card.fields f ""))

def csvSampleCard : CardData :=
  { front := "f", back := "b", deck := "d", tags := [], model := "m",
    fields := [("Front", "f")] }

/- ===== C4 machinery: positions, occurrences, and the behaviour of
   first-occurrence replacement. ===== -/

/-- `t` occurs in `s` starting at index `p`. -/
def occursAt (t s : List Char) (p : Nat) : Prop :=
  p + t.length ≤ s.length ∧ (s.drop p).take t.length = t

/-- The FIRST occurrence of `t` in `s` is at index `p`. -/
def firstOccAt (t s : List Char) (p : Nat) : Prop :=
  occursAt t s p ∧ ∀ q, q < p → ¬ occursAt t s q

instance (t s : List Char) (p : Nat) : Decidable (occursAt t s p) := by
  unfold occursAt
  infer_instance

instance (t s : List Char) (p : Nat) : Decidable (firstOccAt t s p) := by
  unfold firstOccAt
  infer_instance

/-- The fold performed by `process_cloze_content` over the sorted spans. -/
def applySpans (s : List Char) (ds : List ClozeSpan) : List Char :=
  ds.foldl (fun acc c => replaceFirst c.text.data (clozeMarker c) acc) s

/-- Structural decomposition of the rewrite result for spans sorted by
descending position: everything after the highest-position span's
occurrence is the untouched original tail, the occurrence itself becomes
its marker, and the prefix before it is rewritten recursively — hence
exactly one inserted marker per span, and each marker stands where its
span's text stood. -/
def renderDesc (content : List Char) : List ClozeSpan → List Char
  | [] => content
  | d :: rest =>
    renderDesc (content.take (posKey d)) rest ++ clozeMarker d
      ++ content.drop (posKey d + d.text.data.length)

/-- Well-formedness of a descending-sorted span list relative to the
current string: the head's text first-occurs at its position and the
remaining spans live strictly before it. -/
def DescOK (P : List Char) : List ClozeSpan → Prop
  | [] => True
  | d :: rest =>
    d.text.data ≠ [] ∧
    firstOccAt d.text.data P (posKey d) ∧
    posKey d + d.text.data.length ≤ P.length ∧
    DescOK (P.take (posKey d)) rest

instance : IsTotal ClozeSpan (fun a b => posKey b ≤ posKey a) :=
  ⟨fun a b => Nat.le_total (posKey b) (posKey a)⟩

instance : IsTrans ClozeSpan (fun a b => posKey b ≤ posKey a) :=
  ⟨fun _ _ _ hab hbc => Nat.le_trans hbc hab⟩

/-- A span's declared nonempty text first-occurs in the content exactly
at its declared position. -/
def spanOK (content : List Char) (c : ClozeSpan) : Prop :=
  c.text.data ≠ [] ∧ c.position.isSome = true ∧
    firstOccAt c.text.data content (posKey c)

/-- The claim's non-overlap of two spans, at their declared positions. -/
def spansDisjoint (a b : ClozeSpan) : Prop :=
  posKey a + a.text.data.length ≤ posKey b ∨
    posKey b + b.text.data.length ≤ posKey a

/-- Premises of the amended cloze round-trip: every span is a nonempty
first occurrence at an explicit position, and the spans are pairwise
non-overlapping. -/
def validSpans (content : List Char) (spans : List ClozeSpan) : Prop :=
  (∀ c ∈ spans, spanOK content c) ∧ spans.Pairwise spansDisjoint

instance (content : List Char) (c : ClozeSpan) : Decidable (spanOK content c) := by
  unfold spanOK
  infer_instance

instance (a b : ClozeSpan) : Decidable (spansDisjoint a b) := by
  unfold spansDisjoint
  infer_instance

instance (content : List Char) (spans : List ClozeSpan) :
    Decidable (validSpans content spans) := by
  unfold validSpans
  infer_instance

/-- C1.  The field-set invariant as stated fails on the registered
"Enhanced Cloze" template: `_build_cloze_fields` only emits the enhanced
key set for a template literally named "Quizify Enhanced Cloze", while the
Registry registers the enhanced template under the name "Enhanced Cloze",
so that template receives the legacy-cloze key set
\x7bText, Back Extra, Deck, Tags\x7d instead of its declared field list.
The key "Text" is produced though it is not declared, while "Content" and
"Cloze99" are declared but absent. -/
theorem claim_C1_counterexample :
    ("Text" ∈ (build_fields (some (enhancedClozeTemplate "" "" ""))
        "body" { deck := "d" } "d").map Prod.fst) ∧
    ("Text" ∉ ((enhancedClozeTemplate "" "" "").fields.map TemplateField.name)) ∧
    ("Content" ∈ ((enhancedClozeTemplate "" "" "").fields.map TemplateField.name)) ∧
    ("Content" ∉ (build_fields (some (enhancedClozeTemplate "" "" ""))
        "body" { deck := "d" } "d").map Prod.fst) := by
  decide

/-- C1 (amended).  `build_fields` returns exactly the declared key set for
the registered "Quizify" template, and the default shape
\x7bFront, Back, Deck, Tags\x7d when no template is available; for the
registered "Enhanced Cloze" template it returns the legacy-cloze key set
\x7bText, Back Extra, Deck, Tags\x7d, not the declared field set — the
declared enhanced key set is only produced for a template named
"Quizify Enhanced Cloze". -/
theorem claim_C1_field_sets :
    (∀ css fr bk (content : String) (cd : ClozeCardItem) (dk : String),
      (build_fields (some (quizifyTemplate css fr bk)) content cd dk).map Prod.fst
        = (quizifyTemplate css fr bk).fields.map TemplateField.name) ∧
    (∀ css fr bk (content : String) (cd : ClozeCardItem) (dk : String),
      (build_fields (some (enhancedClozeTemplate css fr bk)) content cd dk).map Prod.fst
        = ["Text", "Back Extra", "Deck", "Tags"]) ∧
    (∀ t css fr bk, (t = quizifyTemplate css fr bk ∨ t = enhancedClozeTemplate css fr bk) →
      ∀ (content : String) (cd : ClozeCardItem) (dk : String),
      (build_fields (some t) content cd dk).map Prod.fst
        = (t.fields.map TemplateField.name) ↔ t.name ≠ "Enhanced Cloze") ∧
    (∀ (content : String) (cd : ClozeCardItem) (dk : String),
      (build_fields none content cd dk).map Prod.fst
        = ["Front", "Back", "Deck", "Tags"]) := by
  refine ⟨fun _ _ _ _ _ _ => rfl, fun _ _ _ _ _ _ => rfl, ?_, fun _ _ _ => rfl⟩
  rintro t css fr bk (rfl | rfl) content cd dk <;>
    simp [build_fields, build_cloze_fields, build_quizify_fields,
      quizifyTemplate, enhancedClozeTemplate, joinTags]

/-- C1 witness: the amended biconditional instantiated at the two
registered templates. -/
theorem claim_C1_field_sets_witness :
    ((build_fields (some (quizifyTemplate "c" "f" "b")) "x" { deck := "d" } "d").map Prod.fst
        = ((quizifyTemplate "c" "f" "b").fields.map TemplateField.name) ↔
      (quizifyTemplate "c" "f" "b").name ≠ "Enhanced Cloze") ∧
    ((build_fields (some (enhancedClozeTemplate "c" "f" "b")) "x" { deck := "d" } "d").map Prod.fst
        = ((enhancedClozeTemplate "c" "f" "b").fields.map TemplateField.name) ↔
      (enhancedClozeTemplate "c" "f" "b").name ≠ "Enhanced Cloze") :=
  ⟨claim_C1_field_sets.2.2.1 _ "c" "f" "b" (Or.inl rfl) "x" { deck := "d" } "d",
   claim_C1_field_sets.2.2.1 _ "c" "f" "b" (Or.inr rfl) "x" { deck := "d" } "d"⟩

theorem generate_batch_foldl_init {E : Type}
    (gen : String → Except E (List CardData)) (contents : List String) :
    ∀ init : List CardData,
      contents.foldl (fun all_cards content =>
        match gen content with
        | .ok cards => all_cards ++ cards
        | .error _ => all_cards) init
      = init ++ (contents.filterMap (fun c => (gen c).toOption)).flatten := by
  induction contents with
  | nil => intro init; simp
  | cons c cs ih =>
    intro init
    cases h : gen c <;>
      simp [List.foldl_cons, List.filterMap_cons, h, ih, Except.toOption, List.append_assoc]

/-- C5.  `generate_batch` never raises and returns exactly the
concatenation, in order, of the card lists of the chunks whose generation
succeeded: chunks whose generation raises contribute nothing.  In
particular, with three chunks where the second raises the result is the
cards of chunks 1 and 3. -/
theorem claim_C5_batch_isolation :
    (∀ (E : Type) (gen : String → Except E (List CardData)) (contents : List String),
      generate_batch gen contents
        = (contents.filterMap (fun c => (gen c).toOption)).flatten) ∧
    (∀ (E : Type) (gen : String → Except E (List CardData)) (c₁ c₂ c₃ : String)
        (l₁ l₃ : List CardData) (e : E),
      gen c₁ = .ok l₁ → gen c₂ = .error e → gen c₃ = .ok l₃ →
      generate_batch gen [c₁, c₂, c₃] = l₁ ++ l₃) := by
  constructor
  · intro E gen contents
    simpa using generate_batch_foldl_init gen contents []
  · intro E gen c₁ c₂ c₃ l₁ l₃ e h₁ h₂ h₃
    simp [generate_batch, h₁, h₂, h₃]

/-- C5 witness: three concrete chunks, the second failing. -/
theorem claim_C5_batch_isolation_witness :
    generate_batch (E := Unit)
      (fun c => if c = "b" then .error () else .ok [])
      ["a", "b", "c"] = [] ++ [] :=
  claim_C5_batch_isolation.2 Unit _ "a" "b" "c" [] [] () rfl rfl rfl

theorem dictUpdate_keys_eq (d : List (String × String)) (k v : String) :
    (d.map (fun p => if p.1 = k then (k, v) else p)).map Prod.fst
      = d.map Prod.fst := by
  induction d with
  | nil => rfl
  | cons p ps ih =>
    by_cases hk : p.1 = k
    · simp [hk, ih]
    · simp [hk, ih]

theorem dictInsert_fst_mem (d : List (String × String)) (k v a : String) :
    a ∈ (dictInsert d k v).map Prod.fst ↔ a ∈ d.map Prod.fst ∨ a = k := by
  unfold dictInsert
  by_cases h : d.any (fun p => p.1 = k) = true
  · rw [if_pos h, dictUpdate_keys_eq]
    rcases List.any_eq_true.mp h with ⟨q, hq, hqk⟩
    have hqk' : q.1 = k := of_decide_eq_true hqk
    constructor
    · exact Or.inl
    · rintro (hm | rfl)
      · exact hm
      · exact List.mem_map.mpr ⟨q, hq, hqk'⟩
  · rw [if_neg h]
    simp

theorem export_multiple_formats_foldl {E : Type}
    (attempt : String → Except E String) (formats : List String) :
    ∀ (init : List (String × String)) (a : String),
      a ∈ ((formats.foldl (fun export_paths format_type =>
        if format_type ∈ FORMAT_METHODS then
          match attempt format_type with
          | .ok p => dictInsert export_paths format_type p
          | .error _ => export_paths
        else export_paths) init).map Prod.fst) ↔
      a ∈ init.map Prod.fst ∨
        (a ∈ formats ∧ a ∈ FORMAT_METHODS ∧ (attempt a).isOk = true) := by
  induction formats with
  | nil => intro init a; simp
  | cons f fs ih =>
    intro init a
    simp only [List.foldl_cons, List.mem_cons]
    by_cases hf : f ∈ FORMAT_METHODS
    · cases hA : attempt f with
      | ok p =>
        simp only [hf, if_true, hA, ih, dictInsert_fst_mem]
        constructor
        · rintro ((h | rfl) | h)
          · exact Or.inl h
          · exact Or.inr ⟨Or.inl rfl, hf, by simp [hA, Except.isOk, Except.toBool]⟩
          · exact Or.inr ⟨Or.inr h.1, h.2⟩
        · rintro (h | ⟨(rfl | hm), hrest⟩)
          · exact Or.inl (Or.inl h)
          · exact Or.inl (Or.inr rfl)
          · exact Or.inr ⟨hm, hrest⟩
      | error e =>
        simp only [hf, if_true, hA, ih]
        constructor
        · rintro (h | h)
          · exact Or.inl h
          · exact Or.inr ⟨Or.inr h.1, h.2⟩
        · rintro (h | ⟨(rfl | hm), hrest⟩)
          · exact Or.inl h
          · rw [hA] at hrest; simp [Except.isOk, Except.toBool] at hrest
          · exact Or.inr ⟨hm, hrest⟩
    · simp only [hf, if_false, ih]
      constructor
      · rintro (h | h)
        · exact Or.inl h
        · exact Or.inr ⟨Or.inr h.1, h.2⟩
      · rintro (h | ⟨(rfl | hm), hrest⟩)
        · exact Or.inl h
        · exact absurd hrest.1 hf
        · exact Or.inr ⟨hm, hrest⟩

/-- C6.  The keys of the mapping returned by `export_multiple_formats` are
exactly the requested formats that are supported and whose serialization
succeeded: a key is present iff it was requested, lies in the supported
set \x7bjson, csv, apkg, txt, html\x7d, and its serializer did not raise —
so a failing or unsupported format is omitted while the others are still
produced and the call itself never raises. -/
theorem claim_C6_export_partial_failure :
    ∀ (E : Type) (attempt : String → Except E String) (formats : List String)
      (a : String),
      a ∈ (export_multiple_formats attempt formats).map Prod.fst ↔
        (a ∈ formats ∧ a ∈ FORMAT_METHODS ∧ (attempt a).isOk = true) := by
  intro E attempt formats a
  simpa using export_multiple_formats_foldl attempt formats [] a

/-- C6 witness: requesting `["json", "csv", "badformat"]` against a
serializer that succeeds on both supported formats yields exactly the keys
`json` and `csv` (shown here: `json` present, `badformat` absent). -/
theorem claim_C6_export_partial_failure_witness :
    ("json" ∈ (export_multiple_formats (E := Unit)
        (fun f => if f = "badformat" then .error () else .ok ("out." ++ f))
        ["json", "csv", "badformat"]).map Prod.fst) ∧
    ¬ ("badformat" ∈ (export_multiple_formats (E := Unit)
        (fun f => if f = "badformat" then .error () else .ok ("out." ++ f))
        ["json", "csv", "badformat"]).map Prod.fst) := by
  constructor
  · exact (claim_C6_export_partial_failure Unit _ _ "json").mpr
      ⟨by decide, by decide, by decide⟩
  · intro h
    have := (claim_C6_export_partial_failure Unit _ _ "badformat").mp h
    revert this; decide

/-- The embedded MD5 agrees with the RFC 1321 test suite. -/
theorem md5_rfc1321_test_suite :
    md5HexDigest (utf8Bytes "") = ("d41d8cd98f00b204e9800998ecf8427e" : String).data ∧
    md5HexDigest (utf8Bytes "a") = ("0cc175b9c0f1b6a831c399e269772661" : String).data ∧
    md5HexDigest (utf8Bytes "abc") = ("900150983cd24fb0d6963f7d28e17f72" : String).data := by
  refine ⟨by decide, by decide, by decide⟩

theorem hexVal_hexDigitChar : ∀ n : Nat, n < 16 → hexVal (hexDigitChar n) = n := by
  decide

theorem hexParse16 (x0 x1 x2 x3 x4 x5 x6 x7 x8 x9 x10 x11 x12 x13 x14 x15 : Nat)
    (h0 : x0 < 256) (h1 : x1 < 256) (h2 : x2 < 256) (h3 : x3 < 256)
    (h4 : x4 < 256) (h5 : x5 < 256) (h6 : x6 < 256) (h7 : x7 < 256)
    (h8 : x8 < 256) (h9 : x9 < 256) (h10 : x10 < 256) (h11 : x11 < 256)
    (h12 : x12 < 256) (h13 : x13 < 256) (h14 : x14 < 256) (h15 : x15 < 256) :
    parseHex ((([x0, x1, x2, x3, x4, x5, x6, x7, x8, x9, x10, x11, x12, x13, x14, x15].map
        (fun b => [hexDigitChar (b / 16), hexDigitChar (b % 16)])).flatten).take 8)
      = (List.foldl (fun acc b => acc * 256 + b) 0
          [x0, x1, x2, x3, x4, x5, x6, x7, x8, x9, x10, x11, x12, x13, x14, x15]) / 2 ^ 96 := by
  simp only [List.map_cons, List.map_nil, List.flatten_cons, List.flatten_nil,
    List.cons_append, List.nil_append, List.take_succ_cons, List.take_zero,
    parseHex, List.foldl_cons, List.foldl_nil]
  rw [hexVal_hexDigitChar _ (by omega), hexVal_hexDigitChar _ (by omega),
    hexVal_hexDigitChar _ (by omega), hexVal_hexDigitChar _ (by omega),
    hexVal_hexDigitChar _ (by omega), hexVal_hexDigitChar _ (by omega),
    hexVal_hexDigitChar _ (by omega), hexVal_hexDigitChar _ (by omega)]
  omega

theorem md5Name32_eq_top32 (name : String) :
    md5Name32 name = md5Int (utf8Bytes name) / 2 ^ 96 := by
  rcases h : md5Words (utf8Bytes name) with ⟨a, b, c, d⟩
  have hdig : md5Digest (utf8Bytes name) =
      [a % 256, a / 256 % 256, a / 65536 % 256, a / 16777216 % 256,
       b % 256, b / 256 % 256, b / 65536 % 256, b / 16777216 % 256,
       c % 256, c / 256 % 256, c / 65536 % 256, c / 16777216 % 256,
       d % 256, d / 256 % 256, d / 65536 % 256, d / 16777216 % 256] := by
    simp [md5Digest, h, wordLEBytes]
  rw [md5Name32, md5Int, md5HexDigest, hdig]
  exact hexParse16 _ _ _ _ _ _ _ _ _ _ _ _ _ _ _ _
    (Nat.mod_lt _ (by norm_num)) (Nat.mod_lt _ (by norm_num))
    (Nat.mod_lt _ (by norm_num)) (Nat.mod_lt _ (by norm_num))
    (Nat.mod_lt _ (by norm_num)) (Nat.mod_lt _ (by norm_num))
    (Nat.mod_lt _ (by norm_num)) (Nat.mod_lt _ (by norm_num))
    (Nat.mod_lt _ (by norm_num)) (Nat.mod_lt _ (by norm_num))
    (Nat.mod_lt _ (by norm_num)) (Nat.mod_lt _ (by norm_num))
    (Nat.mod_lt _ (by norm_num)) (Nat.mod_lt _ (by norm_num))
    (Nat.mod_lt _ (by norm_num)) (Nat.mod_lt _ (by norm_num))

/-- C3.  The code takes `hexdigest()[:8]`, the FIRST eight hex characters
of the digest — the top 32 bits of the digest read as a big-endian
integer — not the low 32 bits.  At name "a" the claim's value
(`digest mod 2 ^ 32 = 0x69772661`) differs from what the code returns
(`0x0cc175b9`). -/
theorem claim_C3_counterexample :
    MODEL_IDS.lookup "a" = none ∧
    get_model_id "a" = 0x0cc175b9 ∧
    md5Int (utf8Bytes "a") % 2 ^ 32 = 0x69772661 ∧
    get_model_id "a" ≠ md5Int (utf8Bytes "a") % 2 ^ 32 := by
  refine ⟨by decide, by decide, by decide, by decide⟩

/-- C3 (amended).  Every name in the fixed table ('basic',
'basic_reversed', 'cloze', 'quizify_enhanced_cloze') maps to its
pre-registered integer; every other name maps to the integer given by the
first eight hex digits of the MD5 digest of its UTF-8 encoding — the HIGH
32 bits of the digest read big-endian (`md5Int _ / 2 ^ 96`), not the low
32 bits; and the mapping is a pure function of the name, so two calls with
the same name always agree. -/
theorem claim_C3_model_id :
    (∀ p ∈ MODEL_IDS, get_model_id p.1 = p.2) ∧
    (∀ name, MODEL_IDS.lookup name = none →
      get_model_id name = md5Int (utf8Bytes name) / 2 ^ 96) ∧
    (∀ n₁ n₂ : String, n₁ = n₂ → get_model_id n₁ = get_model_id n₂) := by
  refine ⟨by decide, ?_, fun n₁ n₂ h => congrArg get_model_id h⟩
  intro name hname
  rw [get_model_id, hname]
  exact md5Name32_eq_top32 name

/-- C3 witness: the table case at "basic" and the hash case at "a". -/
theorem claim_C3_model_id_witness :
    get_model_id "basic" = 1607392319 ∧
    get_model_id "a" = md5Int (utf8Bytes "a") / 2 ^ 96 :=
  ⟨claim_C3_model_id.1 ("basic", 1607392319) (by decide),
   claim_C3_model_id.2.1 "a" (by decide)⟩

theorem replaceAllSkip_eq_drop (t m : List Char) :
    ∀ (s : List Char) (k : Nat), replaceAllSkip t m k s = replaceAll t m (s.drop k) := by
  intro s
  induction s with
  | nil => intro k; cases k <;> rfl
  | cons c s ih =>
    intro k
    cases k with
    | zero => rfl
    | succ k => simpa [replaceAllSkip] using ih k

theorem replaceAll_nil (t m : List Char) : replaceAll t m [] = [] := rfl

theorem replaceAll_cons_pos (t m : List Char) (c : Char) (s : List Char)
    (hp : t.isPrefixOf (c :: s) = true) (hne : t ≠ []) :
    replaceAll t m (c :: s) = m ++ replaceAll t m ((c :: s).drop t.length) := by
  show replaceAllSkip t m 0 (c :: s) = _
  rw [replaceAllSkip, if_pos ⟨hp, hne⟩, replaceAllSkip_eq_drop]
  rcases t with _ | ⟨a, t'⟩
  · exact absurd rfl hne
  · simp

theorem replaceAll_cons_neg (t m : List Char) (c : Char) (s : List Char)
    (h : ¬ (t.isPrefixOf (c :: s) = true ∧ t ≠ [])) :
    replaceAll t m (c :: s) = c :: replaceAll t m s := by
  show replaceAllSkip t m 0 (c :: s) = _
  rw [replaceAllSkip, if_neg h]
  rfl

theorem mem_replaceAllSkip (t m : List Char) (x : Char) :
    ∀ (s : List Char) (k : Nat), x ∈ replaceAllSkip t m k s → x ∈ s ∨ x ∈ m := by
  intro s
  induction s with
  | nil => intro k h; cases k <;> simp [replaceAllSkip] at h
  | cons c s ih =>
    intro k h
    cases k with
    | succ k =>
      rw [replaceAllSkip] at h
      rcases ih k h with h' | h'
      · exact Or.inl (List.mem_cons_of_mem _ h')
      · exact Or.inr h'
    | zero =>
      rw [replaceAllSkip] at h
      by_cases hc : t.isPrefixOf (c :: s) ∧ t ≠ []
      · rw [if_pos hc] at h
        rcases List.mem_append.mp h with h' | h'
        · exact Or.inr h'
        · rcases ih _ h' with h'' | h''
          · exact Or.inl (List.mem_cons_of_mem _ h'')
          · exact Or.inr h''
      · rw [if_neg hc] at h
        rcases List.mem_cons.mp h with rfl | h'
        · exact Or.inl (List.mem_cons_self _ _)
        · rcases ih 0 h' with h'' | h''
          · exact Or.inl (List.mem_cons_of_mem _ h'')
          · exact Or.inr h''

theorem mem_replaceAll (t m : List Char) (x : Char) (s : List Char)
    (h : x ∈ replaceAll t m s) : x ∈ s ∨ x ∈ m :=
  mem_replaceAllSkip t m x s 0 h

theorem replaceAll_single_not_mem (c₀ : Char) (m : List Char)
    (hm : c₀ ∉ m) : ∀ s : List Char, c₀ ∉ replaceAll [c₀] m s := by
  intro s
  induction s with
  | nil => simp [replaceAll_nil]
  | cons c s ih =>
    by_cases hc : c = c₀
    · subst hc
      rw [replaceAll_cons_pos _ _ _ _ (by simp [List.isPrefixOf]) (by simp)]
      simp only [List.length_cons, List.length_nil, List.drop_succ_cons, List.drop_zero]
      intro h
      rcases List.mem_append.mp h with h' | h'
      · exact hm h'
      · exact ih h'
    · rw [replaceAll_cons_neg _ _ _ _
        (by simp only [List.isPrefixOf, ne_eq, not_and]
            intro h
            simp at h
            exact absurd h.symm hc)]
      intro h
      rcases List.mem_cons.mp h with h' | h'
      · exact hc h'.symm
      · exact ih h'

theorem occursIn_single_iff (c₀ : Char) (s : List Char) :
    occursIn [c₀] s = true ↔ c₀ ∈ s := by
  induction s with
  | nil => simp [occursIn, List.isEmpty]
  | cons c s ih =>
    rw [occursIn]
    simp only [Bool.or_eq_true, List.mem_cons, ih]
    constructor
    · rintro (h | h)
      · simp [List.isPrefixOf] at h
        exact Or.inl h
      · exact Or.inr h
    · rintro (rfl | h)
      · exact Or.inl (by simp [List.isPrefixOf])
      · exact Or.inr h

theorem replaceAll_of_not_occurs (t m : List Char) :
    ∀ s : List Char, occursIn t s = false → replaceAll t m s = s := by
  intro s
  induction s with
  | nil => intro _; rfl
  | cons c s ih =>
    intro h
    rw [occursIn] at h
    rcases Bool.or_eq_false_iff.mp h with ⟨h1, h2⟩
    rw [replaceAll_cons_neg _ _ _ _ (fun hc => by rw [hc.1] at h1; cases h1), ih h2]

theorem mem_escapeLF (x : Char) :
    ∀ s : List Char, x ∈ escapeLF s → x ∈ s ∨ x = BSLc ∨ x = 'n' := by
  intro s
  induction s with
  | nil => intro h; cases h
  | cons c s ih =>
    intro h
    rw [escapeLF] at h
    by_cases hc : c = LFc
    · rw [if_pos hc] at h
      rcases List.mem_cons.mp h with rfl | h'
      · exact Or.inr (Or.inl rfl)
      · rcases List.mem_cons.mp h' with rfl | h''
        · exact Or.inr (Or.inr rfl)
        · rcases ih h'' with h3 | h3
          · exact Or.inl (List.mem_cons_of_mem _ h3)
          · exact Or.inr h3
    · rw [if_neg hc] at h
      rcases List.mem_cons.mp h with rfl | h'
      · exact Or.inl (List.mem_cons_self _ _)
      · rcases ih h' with h3 | h3
        · exact Or.inl (List.mem_cons_of_mem _ h3)
        · exact Or.inr h3

theorem crlf_id_of_no_cr (m s : List Char) (h : CRc ∉ s) :
    replaceAll [CRc, LFc] m s = s := by
  refine replaceAll_of_not_occurs _ _ _ ?_
  induction s with
  | nil => rfl
  | cons c s ih =>
    rw [occursIn]
    have hc : ¬ c = CRc := fun hc => h (hc ▸ List.mem_cons_self _ _)
    have hs : CRc ∉ s := fun hs => h (List.mem_cons_of_mem _ hs)
    rw [ih hs]
    simp [List.isPrefixOf]
    intro hcc
    exact absurd hcc.symm hc

theorem cr_id_of_no_cr (m s : List Char) (h : CRc ∉ s) :
    replaceAll [CRc] m s = s := by
  refine replaceAll_of_not_occurs _ _ _ ?_
  have : ¬ occursIn [CRc] s = true := fun hc => h ((occursIn_single_iff _ _).mp hc)
  exact Bool.not_eq_true _ ▸ Bool.of_not_eq_true this

theorem unescape_guard (s : List Char) :
    (if occursIn [BSLc, 'n'] s then replaceAll [BSLc, 'n'] [LFc] s else s)
      = replaceAll [BSLc, 'n'] [LFc] s := by
  by_cases h : occursIn [BSLc, 'n'] s = true
  · rw [if_pos h]
  · rw [if_neg h, replaceAll_of_not_occurs _ _ _ (Bool.of_not_eq_true h)]

theorem br_guard (s : List Char) :
    (if occursIn [LFc] s then replaceAll [LFc] ("<br>".data) s else s)
      = replaceAll [LFc] ("<br>".data) s := by
  by_cases h : occursIn [LFc] s = true
  · rw [if_pos h]
  · rw [if_neg h, replaceAll_of_not_occurs _ _ _ (Bool.of_not_eq_true h)]

theorem normalizeChars_eq (s : List Char) :
    normalizeChars s
      = replaceAll [LFc] ("<br>".data)
          (replaceAll [BSLc, 'n'] [LFc]
            (replaceAll [CRc] [LFc] (replaceAll [CRc, LFc] [LFc] s))) := by
  rw [normalizeChars]
  rw [unescape_guard, br_guard]

theorem unesc_bn (s : List Char) :
    replaceAll [BSLc, 'n'] [LFc] (BSLc :: 'n' :: s)
      = LFc :: replaceAll [BSLc, 'n'] [LFc] s := by
  rw [replaceAll_cons_pos _ _ _ _ (by simp [List.isPrefixOf]) (by simp)]
  simp

theorem unesc_head_ne (c : Char) (s : List Char) (hc : c ≠ BSLc) :
    replaceAll [BSLc, 'n'] [LFc] (c :: s)
      = c :: replaceAll [BSLc, 'n'] [LFc] s := by
  rw [replaceAll_cons_neg]
  rintro ⟨hp, -⟩
  simp [List.isPrefixOf] at hp
  exact hc hp.1.symm

theorem unesc_bsl_ne (d : Char) (s : List Char) (hd : d ≠ 'n') :
    replaceAll [BSLc, 'n'] [LFc] (BSLc :: d :: s)
      = BSLc :: replaceAll [BSLc, 'n'] [LFc] (d :: s) := by
  rw [replaceAll_cons_neg]
  rintro ⟨hp, -⟩
  simp [List.isPrefixOf] at hp
  exact hd hp.symm

theorem unesc_escapeLF (s : List Char) :
    replaceAll [BSLc, 'n'] [LFc] (escapeLF s)
      = replaceAll [BSLc, 'n'] [LFc] s := by
  have main : ∀ n : Nat, ∀ s : List Char, s.length ≤ n →
      replaceAll [BSLc, 'n'] [LFc] (escapeLF s)
        = replaceAll [BSLc, 'n'] [LFc] s := by
    intro n
    induction n with
    | zero =>
      intro s hs
      have hnil : s = [] := List.eq_nil_of_length_eq_zero (Nat.le_zero.mp hs)
      subst hnil; rfl
    | succ n ih =>
      intro s hs
      rcases s with _ | ⟨c, s'⟩
      · rfl
      · simp only [List.length_cons] at hs
        by_cases hc : c = LFc
        · subst hc
          rw [escapeLF, if_pos rfl, unesc_bn,
            unesc_head_ne LFc s' (by decide), ih s' (by omega)]
        · rw [escapeLF, if_neg hc]
          by_cases hb : c = BSLc
          · subst hb
            rcases s' with _ | ⟨d, s''⟩
            · simp [escapeLF]
            · simp only [List.length_cons] at hs
              by_cases hd : d = 'n'
              · subst hd
                have e2 : escapeLF ('n' :: s'') = 'n' :: escapeLF s'' := by
                  rw [escapeLF, if_neg (by decide)]
                rw [e2, unesc_bn, unesc_bn, ih s'' (by omega)]
              · by_cases hdLF : d = LFc
                · subst hdLF
                  rw [escapeLF, if_pos rfl,
                    unesc_bsl_ne BSLc _ (by decide), unesc_bn,
                    unesc_bsl_ne LFc _ (by decide),
                    unesc_head_ne LFc _ (by decide), ih s'' (by omega)]
                · have e2 : escapeLF (d :: s'') = d :: escapeLF s'' := by
                    rw [escapeLF, if_neg hdLF]
                  rw [e2, unesc_bsl_ne d _ hd, ← e2,
                    ih (d :: s'') (by simp; omega), unesc_bsl_ne d _ hd]
          · rw [unesc_head_ne c _ hb, unesc_head_ne c _ hb, ih s' (by omega)]
  exact main s.length s (Nat.le_refl _)

theorem no_lf_normalizeChars (s : List Char) : LFc ∉ normalizeChars s := by
  rw [normalizeChars_eq]
  exact replaceAll_single_not_mem LFc ("<br>".data) (by decide) _

theorem no_cr_normalizeChars (s : List Char) : CRc ∉ normalizeChars s := by
  rw [normalizeChars_eq]
  intro h
  rcases mem_replaceAll _ _ _ _ h with h | h
  · rcases mem_replaceAll _ _ _ _ h with h | h
    · exact replaceAll_single_not_mem CRc [LFc] (by decide) _ h
    · exact absurd h (by decide)
  · exact absurd h (by decide)

theorem normalizeChars_escapeLF (s : List Char) (h : CRc ∉ s) :
    normalizeChars (escapeLF s) = normalizeChars s := by
  have hes : CRc ∉ escapeLF s := by
    intro hx
    rcases mem_escapeLF _ _ hx with hx | hx | hx
    · exact h hx
    · exact absurd hx (by decide)
    · exact absurd hx (by decide)
  rw [normalizeChars_eq, normalizeChars_eq,
    crlf_id_of_no_cr _ _ hes, cr_id_of_no_cr _ _ hes,
    crlf_id_of_no_cr _ _ h, cr_id_of_no_cr _ _ h, unesc_escapeLF]

theorem lookup_append_left {β : Type} (l l' : List (String × β)) (k : String)
    (v : β) (h : l.lookup k = some v) : (l ++ l').lookup k = some v := by
  induction l with
  | nil => cases h
  | cons p ps ih =>
    rw [List.cons_append, List.lookup]
    rw [List.lookup] at h
    by_cases hk : (k == p.1) = true
    · rw [hk] at h ⊢
      exact h
    · rw [Bool.not_eq_true] at hk
      rw [hk] at h ⊢
      exact ih h

theorem lookup_append_self {β : Type} (l : List (String × β)) (k : String)
    (v : β) (h : l.lookup k = none) : (l ++ [(k, v)]).lookup k = some v := by
  induction l with
  | nil => simp [List.lookup]
  | cons p ps ih =>
    rw [List.cons_append, List.lookup]
    rw [List.lookup] at h
    by_cases hk : (k == p.1) = true
    · rw [hk] at h
      cases h
    · rw [Bool.not_eq_true] at hk
      rw [hk] at h ⊢
      exact ih h

/- deck-id cache preservation: every exporter-state transformer of this
core either leaves `deck_ids` unchanged or appends a fresh entry. -/

theorem get_deck_id_preserves (st : ExporterState) (name k : String) (v : Nat)
    (h : st.deck_ids.lookup k = some v) :
    ((get_deck_id st name).2).deck_ids.lookup k = some v := by
  rw [get_deck_id]
  cases hl : st.deck_ids.lookup name with
  | some i => exact h
  | none => exact lookup_append_left _ _ _ _ h

theorem create_basic_model_deck_ids (st : ExporterState) (n : String) :
    ((create_basic_model st n).2).deck_ids = st.deck_ids := by
  rw [create_basic_model]
  cases hl : st.model_cache.lookup n <;> rfl

theorem create_cloze_model_deck_ids (st : ExporterState) (n : String) :
    ((create_cloze_model st n).2).deck_ids = st.deck_ids := by
  rw [create_cloze_model]
  cases hl : st.model_cache.lookup n <;> rfl

theorem create_model_from_template_deck_ids (st : ExporterState)
    (t : AnkiTemplate) :
    ((create_model_from_template st t).2).deck_ids = st.deck_ids := by
  rw [create_model_from_template]
  cases hl : st.model_cache.lookup t.name <;> rfl

theorem get_model_for_card_deck_ids (st : ExporterState) (card : CardData) :
    ((get_model_for_card st card).2).deck_ids = st.deck_ids := by
  rw [get_model_for_card]
  by_cases h : occursIn ("cloze".data) (lowerStr card.model).data = true
  · rw [if_pos h]; exact create_cloze_model_deck_ids _ _
  · rw [if_neg h]; exact create_basic_model_deck_ids _ _

theorem create_model_and_note_deck_ids
    (tm : Option (String → Option AnkiTemplate)) (st : ExporterState)
    (card : CardData) (tn : String) :
    ((create_model_and_note tm st card tn).2).deck_ids = st.deck_ids := by
  cases tm with
  | none => exact get_model_for_card_deck_ids _ _
  | some get_template =>
    cases hl : get_template tn with
    | some t =>
      simp only [create_model_and_note, hl]
      exact create_model_from_template_deck_ids _ _
    | none =>
      simp only [create_model_and_note, hl]
      exact get_model_for_card_deck_ids _ _

theorem build_deck_notes_deck_ids (tm : Option (String → Option AnkiTemplate))
    (tn : Option String) (deck_cards : List CardData) :
    ∀ (p : List GNote × ExporterState),
    ((deck_cards.foldl (fun acc card =>
        let effective := match tn with
          | some t => if t = "" then card.model else t
          | none => card.model
        let r := create_model_and_note tm acc.2 card effective
        (acc.1 ++ [r.1.2], r.2)) p).2).deck_ids = p.2.deck_ids := by
  induction deck_cards with
  | nil => intro p; rfl
  | cons c cs ih =>
    intro p
    rw [List.foldl_cons]
    exact (ih _).trans (create_model_and_note_deck_ids tm p.2 c _)

theorem create_decks_preserves (tm : Option (String → Option AnkiTemplate))
    (tn : Option String) (cards : List CardData) (st : ExporterState)
    (k : String) (v : Nat) (h : st.deck_ids.lookup k = some v) :
    ((create_decks_from_cards tm tn cards st).2).deck_ids.lookup k = some v := by
  rw [create_decks_from_cards]
  generalize deck_groups cards = groups
  have main : ∀ (groups : List (String × List CardData)) (st : ExporterState)
      (acc : List GDeck), st.deck_ids.lookup k = some v →
      ((groups.foldl (fun acc g =>
        let r1 := get_deck_id acc.2 g.1
        let r2 := build_deck_notes tm tn r1.2 g.2
        (acc.1 ++ [{ deck_id := r1.1, name := g.1, notes := r2.1 }], r2.2))
        (acc, st)).2).deck_ids.lookup k = some v := by
    intro groups
    induction groups with
    | nil => intro st acc h; exact h
    | cons g gs ih =>
      intro st acc h
      rw [List.foldl_cons]
      refine ih _ _ ?_
      show ((build_deck_notes tm tn (get_deck_id st g.1).2 g.2).2).deck_ids.lookup k = some v
      rw [build_deck_notes, build_deck_notes_deck_ids]
      exact get_deck_id_preserves st g.1 k v h
  exact main groups st [] h

theorem runOp_preserves (st : ExporterState) (op : ExporterOp) (k : String)
    (v : Nat) (h : st.deck_ids.lookup k = some v) :
    (runOp st op).deck_ids.lookup k = some v := by
  cases op with
  | deckId name => exact get_deck_id_preserves st name k v h
  | createDecks tm tn cards => exact create_decks_preserves tm tn cards st k v h

theorem runOps_preserves (ops : List ExporterOp) :
    ∀ (st : ExporterState) (k : String) (v : Nat),
    st.deck_ids.lookup k = some v →
    (runOps st ops).deck_ids.lookup k = some v := by
  induction ops with
  | nil => intro st k v h; exact h
  | cons op ops ih =>
    intro st k v h
    exact ih _ _ _ (runOp_preserves st op k v h)

theorem get_deck_id_caches (st : ExporterState) (name : String) :
    ((get_deck_id st name).2).deck_ids.lookup name
      = some (get_deck_id st name).1 := by
  rw [get_deck_id]
  cases hl : st.deck_ids.lookup name with
  | some i => exact hl
  | none => exact lookup_append_self _ _ _ hl

theorem get_deck_id_of_cached (st : ExporterState) (name : String) (i : Nat)
    (h : st.deck_ids.lookup name = some i) : (get_deck_id st name).1 = i := by
  rw [get_deck_id, h]

/-- C9.  Within one exporter instance the deck-id cache only grows — an
entry, once present, survives every further exporter operation with its
value unchanged — and therefore `_get_deck_id` returns the same integer
for the same deck name across any interleaving of deck-id requests and
apkg deck builds. -/
theorem claim_C9_deck_id_stable :
    (∀ (st : ExporterState) (op : ExporterOp) (k : String) (v : Nat),
      st.deck_ids.lookup k = some v →
      (runOp st op).deck_ids.lookup k = some v) ∧
    (∀ (st : ExporterState) (name : String) (ops : List ExporterOp),
      (get_deck_id (runOps (get_deck_id st name).2 ops) name).1
        = (get_deck_id st name).1) := by
  refine ⟨runOp_preserves, ?_⟩
  intro st name ops
  exact get_deck_id_of_cached _ _ _
    (runOps_preserves ops _ _ _ (get_deck_id_caches st name))

/-- C9 witness: a cached entry survives an interleaved deck build and a
repeated request returns the first id. -/
theorem claim_C9_deck_id_stable_witness :
    ((runOp { deck_ids := [("d", 5)] } (.deckId "e")).deck_ids.lookup "d"
      = some 5) ∧
    ((get_deck_id (runOps (get_deck_id { } "d").2
        [.deckId "e", .createDecks none none []]) "d").1
      = (get_deck_id { } "d").1) :=
  ⟨claim_C9_deck_id_stable.1 { deck_ids := [("d", 5)] } (.deckId "e") "d" 5 rfl,
   claim_C9_deck_id_stable.2 { } "d" [.deckId "e", .createDecks none none []]⟩

theorem foldl_append_singleton {α β : Type} (g : α → β) (l : List α) :
    ∀ acc : List β,
      l.foldl (fun a f => a ++ [g f]) acc = acc ++ l.map g := by
  induction l with
  | nil => intro acc; simp
  | cons x xs ih => intro acc; simp [ih, List.append_assoc]

/-- C8.  `normalize_newlines_for_anki` (i) produces a string with no
newline and no carriage-return characters, (ii) maps the literal-escape
representation of a text (every real LF written as backslash-n) and the
real-newline representation to the same output (for texts without raw
carriage returns, which are not a newline representation), and (iii) is
applied by `create_note_from_template` to every field value inserted
into a package-format note. -/
theorem claim_C8_newline_normalization :
    (∀ s : String, LFc ∉ (normalize_newlines_for_anki s).data ∧
        CRc ∉ (normalize_newlines_for_anki s).data) ∧
    (∀ s : List Char, CRc ∉ s →
        normalizeChars (escapeLF s) = normalizeChars s) ∧
    (∀ (card : CardData) (model : GModel) (template : AnkiTemplate),
        (create_note_from_template card model template).fields
          = template.fields.map
              (fun f => normalize_newlines_for_anki (rawFieldValue card f))) := by
  refine ⟨fun s => ⟨no_lf_normalizeChars s.data, no_cr_normalizeChars s.data⟩,
    normalizeChars_escapeLF, ?_⟩
  intro card model template
  show template.fields.foldl _ [] = _
  rw [foldl_append_singleton
    (fun f => normalize_newlines_for_anki (rawFieldValue card f)) template.fields []]
  rfl

/-- C8 witness: the escaped and the real-newline spelling of `a⏎b`
normalize identically. -/
theorem claim_C8_newline_normalization_witness :
    normalizeChars (escapeLF ("a\nb".data)) = normalizeChars ("a\nb".data) :=
  claim_C8_newline_normalization.2.1 ("a\nb".data) (by decide)

/- ===== C7 machinery: the deck grouping of `_create_decks_from_cards`. ===== -/

theorem addToGroup_upd_keys (groups : List (String × List CardData))
    (k : String) (c : CardData) :
    (groups.map (fun g => if g.1 = k then (g.1, g.2 ++ [c]) else g)).map Prod.fst
      = groups.map Prod.fst := by
  induction groups with
  | nil => rfl
  | cons p ps ih =>
    by_cases hk : p.1 = k
    · simp [hk, ih]
    · simp [hk, ih]

theorem any_key_iff_lookup_isSome {β : Type} (l : List (String × β)) (k : String) :
    l.any (fun g => g.1 = k) = (l.lookup k).isSome := by
  induction l with
  | nil => rfl
  | cons p ps ih =>
    rw [List.any_cons, List.lookup]
    by_cases hk : p.1 = k
    · have hbeq : (k == p.1) = true := by simp [hk]
      rw [hbeq]
      simp [hk]
    · have hbeq : (k == p.1) = false := by
        simp only [beq_eq_false_iff_ne, ne_eq]
        exact fun h => hk h.symm
      rw [hbeq]
      have hdec : decide (p.1 = k) = false := by simp [hk]
      rw [hdec, Bool.false_or, ih]

theorem lookup_upd_eq (groups : List (String × List CardData)) (k : String)
    (c : CardData) (b : List CardData) (h : groups.lookup k = some b) :
    (groups.map (fun g => if g.1 = k then (g.1, g.2 ++ [c]) else g)).lookup k
      = some (b ++ [c]) := by
  induction groups with
  | nil => cases h
  | cons p ps ih =>
    rw [List.lookup] at h
    by_cases hk : (k == p.1) = true
    · rw [hk] at h
      cases h
      have hpk : p.1 = k := (beq_iff_eq.mp hk).symm
      have hmap : (p :: ps).map (fun g => if g.1 = k then (g.1, g.2 ++ [c]) else g)
          = (p.1, p.2 ++ [c])
            :: ps.map (fun g => if g.1 = k then (g.1, g.2 ++ [c]) else g) := by
        rw [List.map_cons, if_pos hpk]
      rw [hmap, List.lookup]
      show (match k == p.1 with
        | true => some (p.2 ++ [c])
        | false => _) = some (p.2 ++ [c])
      rw [hk]
    · rw [Bool.not_eq_true] at hk
      rw [hk] at h
      have hpk : ¬ p.1 = k := fun hc => by simp [hc] at hk
      have hmap : (p :: ps).map (fun g => if g.1 = k then (g.1, g.2 ++ [c]) else g)
          = p :: ps.map (fun g => if g.1 = k then (g.1, g.2 ++ [c]) else g) := by
        rw [List.map_cons, if_neg hpk]
      rw [hmap, List.lookup, hk]
      exact ih h

theorem lookup_upd_ne (groups : List (String × List CardData)) (k n : String)
    (c : CardData) (hn : n ≠ k) :
    (groups.map (fun g => if g.1 = k then (g.1, g.2 ++ [c]) else g)).lookup n
      = groups.lookup n := by
  induction groups with
  | nil => rfl
  | cons p ps ih =>
    by_cases hk : p.1 = k
    · have hne : (n == p.1) = false := by
        simp only [beq_eq_false_iff_ne, ne_eq]
        exact fun hc => hn (hc.trans hk)
      have hmap : (p :: ps).map (fun g => if g.1 = k then (g.1, g.2 ++ [c]) else g)
          = (p.1, p.2 ++ [c])
            :: ps.map (fun g => if g.1 = k then (g.1, g.2 ++ [c]) else g) := by
        rw [List.map_cons, if_pos hk]
      rw [hmap, List.lookup, List.lookup]
      show (match n == p.1 with
        | true => some (p.2 ++ [c])
        | false => _) = _
      rw [hne]
      exact ih
    · have hmap : (p :: ps).map (fun g => if g.1 = k then (g.1, g.2 ++ [c]) else g)
          = p :: ps.map (fun g => if g.1 = k then (g.1, g.2 ++ [c]) else g) := by
        rw [List.map_cons, if_neg hk]
      rw [hmap, List.lookup, List.lookup]
      cases hnp : (n == p.1) with
      | true => rfl
      | false => exact ih

theorem lookup_append_ne {β : Type} (l : List (String × β)) (k n : String)
    (v : β) (hn : n ≠ k) : (l ++ [(k, v)]).lookup n = l.lookup n := by
  induction l with
  | nil =>
    have hbeq : (n == k) = false := by
      simp only [beq_eq_false_iff_ne, ne_eq]
      exact hn
    simp [List.lookup, hbeq]
  | cons p ps ih =>
    rw [List.cons_append, List.lookup, List.lookup]
    cases hnp : (n == p.1) with
    | true => rfl
    | false => exact ih

theorem groupsInv_step (cards : List CardData)
    (groups : List (String × List CardData)) (c : CardData)
    (h : GroupsInv cards groups) :
    GroupsInv (cards ++ [c]) (addToGroup groups c) := by
  obtain ⟨hnd, hlk⟩ := h
  rw [addToGroup]
  by_cases hany : groups.any (fun g => g.1 = c.deck) = true
  · rw [if_pos hany]
    refine ⟨by rw [addToGroup_upd_keys]; exact hnd, ?_⟩
    intro n
    by_cases hn : n = c.deck
    · subst hn
      have hsome : (groups.lookup c.deck).isSome := by
        rw [← any_key_iff_lookup_isSome]; exact hany
      rw [hlk c.deck] at hsome
      by_cases hca : cards.any (fun c' => c'.deck = c.deck) = true
      · rw [lookup_upd_eq _ _ _ _ (by rw [hlk c.deck, if_pos hca])]
        simp [List.any_append, List.filter_append, hca]
      · rw [if_neg hca] at hsome
        cases hsome
    · rw [lookup_upd_ne _ _ _ _ hn, hlk n]
      have hcd : (decide (c.deck = n)) = false := by
        simp only [decide_eq_false_iff_not]
        exact fun hc => hn hc.symm
      simp [List.any_append, List.filter_append, hcd]
  · rw [if_neg hany]
    have hnone : groups.lookup c.deck = none := by
      have : (groups.lookup c.deck).isSome = false := by
        rw [← any_key_iff_lookup_isSome]
        exact Bool.of_not_eq_true hany
      cases hl : groups.lookup c.deck
      · rfl
      · rw [hl] at this; cases this
    have hmemk : c.deck ∉ groups.map Prod.fst := by
      intro hm
      rcases List.mem_map.mp hm with ⟨g, hg, hgk⟩
      have : groups.any (fun g => g.1 = c.deck) = true :=
        List.any_eq_true.mpr ⟨g, hg, by simp [hgk]⟩
      exact hany this
    refine ⟨?_, ?_⟩
    · rw [List.map_append]
      simp only [List.map_cons, List.map_nil]
      exact List.nodup_append.mpr ⟨hnd, List.nodup_singleton _,
        by simpa [List.disjoint_singleton] using hmemk⟩
    · intro n
      have hfilnil : cards.filter (fun c' => c'.deck = c.deck) = [] := by
        have hca : cards.any (fun c' => c'.deck = c.deck) = false := by
          cases hca : cards.any (fun c' => c'.deck = c.deck)
          · rfl
          · have := hlk c.deck
            rw [if_pos hca] at this
            rw [this] at hnone
            cases hnone
        rw [List.filter_eq_nil_iff]
        intro a ha hdeck
        have : cards.any (fun c' => c'.deck = c.deck) = true :=
          List.any_eq_true.mpr ⟨a, ha, hdeck⟩
        rw [hca] at this
        cases this
      by_cases hn : n = c.deck
      · subst hn
        rw [lookup_append_self _ _ _ hnone]
        simp [List.any_append, List.filter_append, hfilnil]
      · rw [lookup_append_ne _ _ _ _ hn, hlk n]
        have hcd : (decide (c.deck = n)) = false := by
          simp only [decide_eq_false_iff_not]
          exact fun hc => hn hc.symm
        simp [List.any_append, List.filter_append, hcd]

theorem groupsInv_fold (cards : List CardData) :
    ∀ (processed : List CardData) (groups : List (String × List CardData)),
    GroupsInv processed groups →
    GroupsInv (processed ++ cards) (cards.foldl addToGroup groups) := by
  induction cards with
  | nil => intro p g h; simpa using h
  | cons c cs ih =>
    intro p g h
    rw [List.foldl_cons]
    have := ih (p ++ [c]) _ (groupsInv_step p g c h)
    simpa [List.append_assoc] using this

theorem deck_groups_inv (cards : List CardData) :
    GroupsInv cards (deck_groups cards) := by
  have hbase : GroupsInv [] [] := ⟨List.nodup_nil, fun n => by simp⟩
  have := groupsInv_fold cards [] [] hbase
  simpa [deck_groups] using this

theorem map_upd_id_of_no_key (groups : List (String × List CardData))
    (k : String) (c : CardData) (h : ∀ g ∈ groups, g.1 ≠ k) :
    groups.map (fun g => if g.1 = k then (g.1, g.2 ++ [c]) else g) = groups := by
  induction groups with
  | nil => rfl
  | cons p ps ih =>
    rw [List.map_cons, if_neg (h p (List.mem_cons_self _ _)),
      ih (fun g hg => h g (List.mem_cons_of_mem _ hg))]

theorem sum_upd (groups : List (String × List CardData)) (k : String)
    (c : CardData) (hnd : (groups.map Prod.fst).Nodup)
    (hany : groups.any (fun g => g.1 = k) = true) :
    ((groups.map (fun g => if g.1 = k then (g.1, g.2 ++ [c]) else g)).map
        (fun g => g.2.length)).sum
      = (groups.map (fun g => g.2.length)).sum + 1 := by
  induction groups with
  | nil => cases hany
  | cons p ps ih =>
    rw [List.map_cons, List.nodup_cons] at hnd
    by_cases hk : p.1 = k
    · have hid : ps.map (fun g => if g.1 = k then (g.1, g.2 ++ [c]) else g) = ps := by
        refine map_upd_id_of_no_key ps k c (fun g hg hgk => hnd.1 ?_)
        rw [← hk] at hgk
        exact hgk ▸ List.mem_map.mpr ⟨g, hg, rfl⟩
      rw [List.map_cons, if_pos hk, hid]
      simp [Nat.add_assoc, Nat.add_comm, Nat.add_left_comm]
    · have hany' : ps.any (fun g => g.1 = k) = true := by
        rw [List.any_cons] at hany
        rcases (Bool.or_eq_true _ _).mp hany with h' | h'
        · exact absurd (of_decide_eq_true h') hk
        · exact h'
      rw [List.map_cons, if_neg hk]
      simp only [List.map_cons, List.sum_cons]
      rw [ih hnd.2 hany']
      omega

theorem sum_addToGroup (groups : List (String × List CardData)) (c : CardData)
    (hnd : (groups.map Prod.fst).Nodup) :
    ((addToGroup groups c).map (fun g => g.2.length)).sum
      = (groups.map (fun g => g.2.length)).sum + 1 := by
  rw [addToGroup]
  by_cases hany : groups.any (fun g => g.1 = c.deck) = true
  · rw [if_pos hany]
    exact sum_upd groups c.deck c hnd hany
  · rw [if_neg hany]
    simp

theorem sum_groups_fold (cards : List CardData) :
    ∀ (processed : List CardData) (groups : List (String × List CardData)),
    GroupsInv processed groups →
    ((cards.foldl addToGroup groups).map (fun g => g.2.length)).sum
      = (groups.map (fun g => g.2.length)).sum + cards.length := by
  induction cards with
  | nil => intro p g _; simp
  | cons c cs ih =>
    intro p g hinv
    rw [List.foldl_cons]
    rw [ih (p ++ [c]) _ (groupsInv_step p g c hinv),
      sum_addToGroup g c hinv.1]
    simp [Nat.add_assoc, Nat.add_comm, Nat.add_left_comm]

theorem lookup_of_mem_nodup (groups : List (String × List CardData))
    (g : String × List CardData) (hg : g ∈ groups)
    (hnd : (groups.map Prod.fst).Nodup) : groups.lookup g.1 = some g.2 := by
  induction groups with
  | nil => cases hg
  | cons p ps ih =>
    rw [List.map_cons, List.nodup_cons] at hnd
    rcases List.mem_cons.mp hg with rfl | hg'
    · rw [List.lookup]
      have : (g.1 == g.1) = true := by simp
      rw [this]
    · have hne : (g.1 == p.1) = false := by
        simp only [beq_eq_false_iff_ne, ne_eq]
        intro hc
        exact hnd.1 (hc ▸ List.mem_map.mpr ⟨g, hg', rfl⟩)
      rw [List.lookup, hne]
      exact ih hg' hnd.2

theorem build_deck_notes_len (tm : Option (String → Option AnkiTemplate))
    (tn : Option String) (deck_cards : List CardData) :
    ∀ p : List GNote × ExporterState,
    ((deck_cards.foldl (fun acc card =>
        let effective := match tn with
          | some t => if t = "" then card.model else t
          | none => card.model
        let r := create_model_and_note tm acc.2 card effective
        (acc.1 ++ [r.1.2], r.2)) p).1).length
      = p.1.length + deck_cards.length := by
  induction deck_cards with
  | nil => intro p; rfl
  | cons c cs ih =>
    intro p
    rw [List.foldl_cons]
    rw [ih _]
    simp
    omega

theorem create_decks_shape (tm : Option (String → Option AnkiTemplate))
    (tn : Option String) (groups : List (String × List CardData)) :
    ∀ (acc : List GDeck × ExporterState),
    ((groups.foldl (fun acc g =>
        let r1 := get_deck_id acc.2 g.1
        let r2 := build_deck_notes tm tn r1.2 g.2
        (acc.1 ++ [{ deck_id := r1.1, name := g.1, notes := r2.1 }], r2.2)) acc).1).map
      (fun d => (d.name, d.notes.length))
      = acc.1.map (fun d => (d.name, d.notes.length))
        ++ groups.map (fun g => (g.1, g.2.length)) := by
  induction groups with
  | nil => intro acc; simp
  | cons g gs ih =>
    intro acc
    rw [List.foldl_cons, ih _]
    have hlen : ((build_deck_notes tm tn (get_deck_id acc.2 g.1).2 g.2).1).length
        = g.2.length := by
      rw [build_deck_notes, build_deck_notes_len]
      simp
    simp [hlen]

theorem mem_keys_of_lookup {β : Type} (l : List (String × β)) (k : String)
    (v : β) (h : l.lookup k = some v) : k ∈ l.map Prod.fst := by
  induction l with
  | nil => cases h
  | cons p ps ih =>
    rw [List.lookup] at h
    by_cases hk : (k == p.1) = true
    · rw [List.map_cons]
      exact (beq_iff_eq.mp hk) ▸ List.mem_cons_self _ _
    · rw [Bool.not_eq_true] at hk
      rw [hk] at h
      exact List.mem_cons_of_mem _ (ih h)

theorem map_congr_mem {α β : Type} (f g : α → β) :
    ∀ l : List α, (∀ a ∈ l, f a = g a) → l.map f = l.map g := by
  intro l
  induction l with
  | nil => intro _; rfl
  | cons x xs ih =>
    intro h
    rw [List.map_cons, List.map_cons, h x (List.mem_cons_self _ _),
      ih (fun a ha => h a (List.mem_cons_of_mem _ ha))]

theorem bucket_eq_filter (cards : List CardData) (g : String × List CardData)
    (hg : g ∈ deck_groups cards) :
    g.2 = cards.filter (fun c => c.deck = g.1) := by
  obtain ⟨hnd, hlk⟩ := deck_groups_inv cards
  have hl := lookup_of_mem_nodup _ g hg hnd
  rw [hlk g.1] at hl
  by_cases hca : cards.any (fun c => c.deck = g.1) = true
  · rw [if_pos hca] at hl
    exact (Option.some.inj hl).symm
  · rw [if_neg hca] at hl
    cases hl

/-- C7.  The deck containers built by `_create_decks_from_cards` are in
one-to-one correspondence with the distinct deck names of the cards
(distinct names, and a container exists exactly for the deck names
appearing among the cards); each container holds exactly the notes of the
cards bearing its deck name; the note counts sum to the number of cards;
and the concrete 5-cards/2-decks scenario yields 2 containers with note
counts summing to 5. -/
theorem claim_C7_deck_containers :
    (∀ (tm : Option (String → Option AnkiTemplate)) (tn : Option String)
       (cards : List CardData) (st : ExporterState),
      (((create_decks_from_cards tm tn cards st).1.map GDeck.name).Nodup) ∧
      (∀ n, n ∈ (create_decks_from_cards tm tn cards st).1.map GDeck.name ↔
          n ∈ cards.map CardData.deck) ∧
      ((create_decks_from_cards tm tn cards st).1.map (fun d => d.notes.length)
        = (create_decks_from_cards tm tn cards st).1.map
            (fun d => (cards.filter (fun c => c.deck = d.name)).length)) ∧
      (((create_decks_from_cards tm tn cards st).1.map
          (fun d => d.notes.length)).sum = cards.length)) ∧
    ((create_decks_from_cards none none fiveCards { }).1.length = 2 ∧
      ((create_decks_from_cards none none fiveCards { }).1.map
          (fun d => d.notes.length)).sum = 5) := by
  constructor
  · intro tm tn cards st
    obtain ⟨hnd, hlk⟩ := deck_groups_inv cards
    have hshape := create_decks_shape tm tn (deck_groups cards) ([], st)
    rw [show ((([] : List GDeck).map (fun d => (d.name, d.notes.length)))
        ++ (deck_groups cards).map (fun g => (g.1, g.2.length)))
      = (deck_groups cards).map (fun g => (g.1, g.2.length)) from by simp] at hshape
    have hnames : (create_decks_from_cards tm tn cards st).1.map GDeck.name
        = (deck_groups cards).map Prod.fst := by
      have h2 := congrArg (List.map Prod.fst) hshape
      rw [List.map_map, List.map_map] at h2
      exact h2
    have hlens : (create_decks_from_cards tm tn cards st).1.map
          (fun d => d.notes.length)
        = (deck_groups cards).map (fun g => g.2.length) := by
      have h2 := congrArg (List.map Prod.snd) hshape
      rw [List.map_map, List.map_map] at h2
      exact h2
    refine ⟨by rw [hnames]; exact hnd, ?_, ?_, ?_⟩
    · intro n
      rw [hnames, List.mem_map, List.mem_map]
      constructor
      · rintro ⟨g, hg, rfl⟩
        have hsome : ((deck_groups cards).lookup g.1).isSome := by
          rw [lookup_of_mem_nodup _ g hg hnd]; rfl
        rw [hlk g.1] at hsome
        by_cases hca : cards.any (fun c => c.deck = g.1) = true
        · rcases List.any_eq_true.mp hca with ⟨c, hc, hcd⟩
          exact ⟨c, hc, of_decide_eq_true hcd⟩
        · rw [if_neg hca] at hsome
          cases hsome
      · rintro ⟨c, hc, rfl⟩
        have hca : cards.any (fun c' => c'.deck = c.deck) = true :=
          List.any_eq_true.mpr ⟨c, hc, by simp⟩
        have hl := hlk c.deck
        rw [if_pos hca] at hl
        rcases List.mem_map.mp (mem_keys_of_lookup _ _ _ hl) with ⟨g, hg, hgk⟩
        exact ⟨g, hg, hgk⟩
    · rw [hlens]
      have hr : (create_decks_from_cards tm tn cards st).1.map
            (fun d => (cards.filter (fun c => c.deck = d.name)).length)
          = ((create_decks_from_cards tm tn cards st).1.map GDeck.name).map
            (fun n => (cards.filter (fun c => c.deck = n)).length) := by
        rw [List.map_map]
        rfl
      rw [hr, hnames, List.map_map]
      refine map_congr_mem _ _ _ (fun g hg => ?_)
      rw [bucket_eq_filter cards g hg]
      rfl
    · rw [hlens]
      have := sum_groups_fold cards [] []
        ⟨List.nodup_nil, fun n => by simp⟩
      rw [deck_groups]
      simpa using this
  · constructor
    · decide
    · decide

/-- C7 witness: the membership biconditional at deck name "DeckA" in the
5-card scenario. -/
theorem claim_C7_deck_containers_witness :
    "DeckA" ∈ (create_decks_from_cards none none fiveCards { }).1.map GDeck.name ↔
      "DeckA" ∈ fiveCards.map CardData.deck :=
  (claim_C7_deck_containers.1 none none fiveCards { }).2.1 "DeckA"

theorem validate_card_false_of_empty (card : CardData)
    (h : card.front = "" ∨ card.back = "" ∨ card.deck = "") :
    validate_card card = false := by
  rw [validate_card]
  by_cases h1 : card.front = "" ∨ card.back = ""
  · rw [if_pos h1]
  · rw [if_neg h1]
    have hdeck : card.deck = "" := by
      rcases h with h | h | h
      · exact absurd (Or.inl h) h1
      · exact absurd (Or.inr h) h1
      · exact h
    rw [if_pos hdeck]

/-- C10.  `validate_card` rejects every card with an empty front, back or
deck, and every card carrying cloze data whose front has neither an
enhanced-cloze placeholder nor a "more content" marker; and every card
built by the cloze-synthesis path for a non-cloze template named
"Quizify" has its back forced to the empty string and therefore never
validates. -/
theorem claim_C10_validate_card :
    (∀ card : CardData, (card.front = "" ∨ card.back = "" ∨ card.deck = "") →
      validate_card card = false) ∧
    (∀ card : CardData, card.cloze_data.isSome →
      validate_cloze_format card.front = false →
      validate_card card = false) ∧
    (∀ (cd : ClozeCardItem) (t : AnkiTemplate) (config : GenerationConfig),
      t.name = "Quizify" → t.is_cloze = false →
      (create_cloze_card cd t config).back = "" ∧
      validate_card (create_cloze_card cd t config) = false) := by
  refine ⟨validate_card_false_of_empty, ?_, ?_⟩
  · intro card hc hv
    rw [validate_card]
    by_cases h1 : card.front = "" ∨ card.back = ""
    · rw [if_pos h1]
    · rw [if_neg h1]
      by_cases h2 : card.deck = ""
      · rw [if_pos h2]
      · rw [if_neg h2, if_pos ⟨hc, hv⟩]
  · intro cd t config hname hcloze
    have hback : (create_cloze_card cd t config).back = "" := by
      simp only [create_cloze_card]
      rw [if_pos ⟨hname, hcloze⟩]
    exact ⟨hback, validate_card_false_of_empty _ (Or.inr (Or.inl hback))⟩

/-- C10 witness: a concrete Quizify cloze card is built with an empty
back and fails validation. -/
theorem claim_C10_validate_card_witness :
    (create_cloze_card { content := "c", deck := "d" }
      (quizifyTemplate "" "" "") { template_name := "Quizify", prompt_type := "cloze" }).back = "" ∧
    validate_card (create_cloze_card { content := "c", deck := "d" }
      (quizifyTemplate "" "" "") { template_name := "Quizify", prompt_type := "cloze" }) = false :=
  claim_C10_validate_card.2.2 { content := "c", deck := "d" }
    (quizifyTemplate "" "" "") { template_name := "Quizify", prompt_type := "cloze" }
    rfl rfl

theorem lookup_eq_none_of_not_mem {β : Type} (l : List (String × β))
    (k : String) (h : k ∉ l.map Prod.fst) : l.lookup k = none := by
  induction l with
  | nil => rfl
  | cons p ps ih =>
    rw [List.lookup]
    have hk : (k == p.1) = false := by
      simp only [beq_eq_false_iff_ne, ne_eq]
      intro hc
      exact h (hc ▸ List.mem_cons_self _ _)
    rw [hk]
    exact ih (fun hm => h (List.mem_cons_of_mem _ hm))

/-- C2.  The tabular dump as produced by the code: the three directive
strings are the three CELLS of the single first row (not three rows), the
sorted deduplicated union of the cards' field names is the SECOND row
(not the fourth), and each card contributes one row in which a field the
card does not have is rendered as the empty string. -/
theorem claim_C2_csv_rows :
    ∀ cards : List CardData,
      ((export_to_csv_rows cards).length = cards.length + 2) ∧
      ((export_to_csv_rows cards)[0]?
        = some ["#separator:tab", "#html:true", "#tags column:4"]) ∧
      (List.Pairwise (fun a b => strLeB a b = true) (csvFieldNames cards) ∧
        (csvFieldNames cards).Nodup ∧
        (∀ f, f ∈ csvFieldNames cards ↔ ∃ c ∈ cards, f ∈ c.fields.map Prod.fst)) ∧
      ((export_to_csv_rows cards)[1]? = some (csvFieldNames cards)) ∧
      (∀ (i : Nat) (c : CardData), cards[i]? = some c →
        (export_to_csv_rows cards)[i + 2]?
          = some ((csvFieldNames cards).map (fun f => lookupD c.fields f ""))) ∧
      (∀ (c : CardData) (f : String), f ∉ c.fields.map Prod.fst →
        lookupD c.fields f "" = "") := by
  intro cards
  refine ⟨by simp [export_to_csv_rows], rfl, ⟨?_, ?_, ?_⟩,
    by simp [export_to_csv_rows], ?_, ?_⟩
  · exact List.sorted_insertionSort _ _
  · exact ((List.perm_insertionSort _ _).nodup_iff).mpr (List.nodup_dedup _)
  · intro f
    rw [csvFieldNames, List.mem_insertionSort, List.mem_dedup]
    constructor
    · intro h
      rcases List.mem_flatten.mp h with ⟨l, hl, hfl⟩
      rcases List.mem_map.mp hl with ⟨c, hc, rfl⟩
      exact ⟨c, hc, hfl⟩
    · rintro ⟨c, hc, hf⟩
      exact List.mem_flatten.mpr ⟨c.fields.map Prod.fst,
        List.mem_map.mpr ⟨c, hc, rfl⟩, hf⟩
  · intro i c hi
    simp only [export_to_csv_rows]
    rw [List.cons_append, List.cons_append, List.nil_append,
      List.getElem?_cons_succ, List.getElem?_cons_succ, List.getElem?_map, hi]
    rfl
  · intro c f hf
    rw [lookupD, lookup_eq_none_of_not_mem _ _ hf]

/-- C2 counterexample: for one concrete card the claimed first three
directive-only rows do not exist — the directives are the cells of one
row, the header is row 2 and the single data row is row 3. -/
theorem claim_C2_counterexample :
    (export_to_csv_rows [csvSampleCard]
      = [["#separator:tab", "#html:true", "#tags column:4"],
         ["Front"], ["f"]]) ∧
    ¬ ((export_to_csv_rows [csvSampleCard]).take 3
      = [["#separator:tab"], ["#html:true"], ["#tags column:4"]]) := by
  constructor
  · decide
  · decide

/-- C2 witness: the data-row equation at row index 0 and the
missing-field rendering at a concrete card. -/
theorem claim_C2_csv_rows_witness :
    ((export_to_csv_rows [csvSampleCard])[0 + 2]?
      = some ((csvFieldNames [csvSampleCard]).map
        (fun fl => lookupD csvSampleCard.fields fl ""))) ∧
    lookupD csvSampleCard.fields "Back" "" = "" := by
  constructor
  · exact (claim_C2_csv_rows [csvSampleCard]).2.2.2.2.1 0 _ rfl
  · exact (claim_C2_csv_rows [csvSampleCard]).2.2.2.2.2 csvSampleCard "Back"
      (by decide)

theorem isPrefixOf_iff_take (t : List Char) : ∀ u : List Char,
    t.isPrefixOf u = true ↔ t.length ≤ u.length ∧ u.take t.length = t := by
  induction t with
  | nil => intro u; simp [List.isPrefixOf]
  | cons a as ih =>
    intro u
    rcases u with _ | ⟨b, bs⟩
    · simp [List.isPrefixOf]
    · rw [List.isPrefixOf]
      simp only [Bool.and_eq_true, beq_iff_eq, ih bs, List.length_cons,
        List.take_succ_cons, List.cons.injEq]
      constructor
      · rintro ⟨rfl, h1, h2⟩
        exact ⟨by omega, rfl, h2⟩
      · rintro ⟨h1, rfl, h2⟩
        exact ⟨rfl, by omega, h2⟩

theorem occursAt_zero_iff (t s : List Char) :
    occursAt t s 0 ↔ t.isPrefixOf s = true := by
  rw [isPrefixOf_iff_take, occursAt]
  simp

theorem occursAt_cons_succ (t : List Char) (c : Char) (s : List Char) (p : Nat) :
    occursAt t (c :: s) (p + 1) ↔ occursAt t s p := by
  unfold occursAt
  rw [List.drop_succ_cons, List.length_cons]
  constructor <;> exact fun h => ⟨by omega, h.2⟩

theorem replaceFirst_firstOcc (t m : List Char) (ht : t ≠ []) :
    ∀ (s : List Char) (p : Nat), firstOccAt t s p →
    replaceFirst t m s = s.take p ++ m ++ s.drop (p + t.length) := by
  intro s
  induction s with
  | nil =>
    intro p h
    have h1 := h.1.1
    simp only [List.length_nil, Nat.le_zero] at h1
    have : t.length ≠ 0 := fun hc => ht (List.eq_nil_of_length_eq_zero hc)
    omega
  | cons c s' ih =>
    intro p h
    cases p with
    | zero =>
      have hp : t.isPrefixOf (c :: s') = true := (occursAt_zero_iff _ _).mp h.1
      rw [replaceFirst, if_pos hp]
      simp
    | succ p' =>
      have hnp : ¬ t.isPrefixOf (c :: s') = true := by
        intro hc
        exact h.2 0 (Nat.succ_pos _) ((occursAt_zero_iff _ _).mpr hc)
      rw [replaceFirst, if_neg hnp]
      have h' : firstOccAt t s' p' := by
        refine ⟨(occursAt_cons_succ _ _ _ _).mp h.1, fun q hq hocc => ?_⟩
        exact h.2 (q + 1) (by omega) ((occursAt_cons_succ _ _ _ _).mpr hocc)
      rw [ih p' h']
      have hdrop : List.drop (p' + 1 + t.length) (c :: s')
          = List.drop (p' + t.length) s' := by
        rw [show p' + 1 + t.length = (p' + t.length) + 1 from by omega,
          List.drop_succ_cons]
      rw [List.take_succ_cons, hdrop]
      simp [List.cons_append, List.append_assoc]

theorem occursAt_append_iff (t P S : List Char) (p : Nat)
    (hp : p + t.length ≤ P.length) :
    occursAt t (P ++ S) p ↔ occursAt t P p := by
  unfold occursAt
  rw [List.drop_append_of_le_length (by omega : p ≤ P.length),
    List.take_append_of_le_length (by simp [List.length_drop]; omega),
    List.length_append]
  constructor <;> exact fun h => ⟨by omega, h.2⟩

theorem firstOccAt_append (t P S : List Char) (p : Nat)
    (hp : p + t.length ≤ P.length) (h : firstOccAt t P p) :
    firstOccAt t (P ++ S) p := by
  refine ⟨(occursAt_append_iff _ _ _ _ hp).mpr h.1, fun q hq hocc => ?_⟩
  by_cases hqP : q + t.length ≤ P.length
  · exact h.2 q hq ((occursAt_append_iff _ _ _ _ hqP).mp hocc)
  · omega

theorem replaceFirst_append (t m P S : List Char) (p : Nat) (ht : t ≠ [])
    (hp : p + t.length ≤ P.length) (h : firstOccAt t P p) :
    replaceFirst t m (P ++ S) = (replaceFirst t m P) ++ S := by
  rw [replaceFirst_firstOcc t m ht (P ++ S) p (firstOccAt_append t P S p hp h),
    replaceFirst_firstOcc t m ht P p h,
    List.take_append_of_le_length (by omega : p ≤ P.length),
    List.drop_append_of_le_length hp]
  simp [List.append_assoc]

theorem firstOccAt_take (t P : List Char) (p q : Nat)
    (hq : q + t.length ≤ p) (h : firstOccAt t P q) :
    firstOccAt t (P.take p) q := by
  have hlen : q + t.length ≤ (P.take p).length := by
    have := h.1.1
    simp only [List.length_take]
    omega
  have hsplit : P.take p ++ P.drop p = P := List.take_append_drop _ _
  refine ⟨?_, fun r hr hocc => ?_⟩
  · rw [← occursAt_append_iff t (P.take p) (P.drop p) q hlen, hsplit]
    exact h.1
  · have hrlen : r + t.length ≤ (P.take p).length := hocc.1
    have : occursAt t P r := by
      rw [← hsplit]
      exact (occursAt_append_iff t (P.take p) (P.drop p) r hrlen).mpr hocc
    exact h.2 r hr this

theorem applySpans_append (ds : List ClozeSpan) :
    ∀ (P S : List Char), DescOK P ds →
    applySpans (P ++ S) ds = applySpans P ds ++ S := by
  induction ds with
  | nil => intro P S _; rfl
  | cons d rest ih =>
    intro P S hok
    obtain ⟨ht, hfo, hlen, hrec⟩ := hok
    show applySpans (replaceFirst d.text.data (clozeMarker d) (P ++ S)) rest
      = applySpans (replaceFirst d.text.data (clozeMarker d) P) rest ++ S
    rw [replaceFirst_append _ _ _ _ _ ht hlen hfo,
      replaceFirst_firstOcc _ _ ht P _ hfo]
    have e1 : (List.take (posKey d) P ++ clozeMarker d
          ++ List.drop (posKey d + d.text.data.length) P) ++ S
        = List.take (posKey d) P ++ (clozeMarker d
          ++ (List.drop (posKey d + d.text.data.length) P ++ S)) := by
      simp [List.append_assoc]
    have e2 : List.take (posKey d) P ++ clozeMarker d
          ++ List.drop (posKey d + d.text.data.length) P
        = List.take (posKey d) P ++ (clozeMarker d
          ++ List.drop (posKey d + d.text.data.length) P) := by
      simp [List.append_assoc]
    rw [e1, e2, ih _ _ hrec, ih _ _ hrec]
    simp [List.append_assoc]

theorem applySpans_renderDesc (ds : List ClozeSpan) :
    ∀ P : List Char, DescOK P ds → applySpans P ds = renderDesc P ds := by
  induction ds with
  | nil => intro P _; rfl
  | cons d rest ih =>
    intro P hok
    obtain ⟨ht, hfo, hlen, hrec⟩ := hok
    show applySpans (replaceFirst d.text.data (clozeMarker d) P) rest
      = renderDesc P (d :: rest)
    rw [replaceFirst_firstOcc _ _ ht P _ hfo, List.append_assoc,
      applySpans_append rest (P.take (posKey d)) _ hrec,
      ih (P.take (posKey d)) hrec, renderDesc]
    simp [List.append_assoc]

theorem descOK_of_sorted (ds : List ClozeSpan) :
    ∀ P : List Char,
    (∀ c ∈ ds, c.text.data ≠ [] ∧ firstOccAt c.text.data P (posKey c)) →
    ds.Pairwise (fun a b => posKey b + b.text.data.length ≤ posKey a) →
    DescOK P ds := by
  induction ds with
  | nil => intro P _ _; trivial
  | cons d rest ih =>
    intro P hmem hpw
    obtain ⟨hd1, hd2⟩ := hmem d (List.mem_cons_self _ _)
    rw [List.pairwise_cons] at hpw
    refine ⟨hd1, hd2, hd2.1.1, ?_⟩
    refine ih (P.take (posKey d)) (fun c hc => ?_) hpw.2
    obtain ⟨hc1, hc2⟩ := hmem c (List.mem_cons_of_mem _ hc)
    exact ⟨hc1, firstOccAt_take _ _ _ _ (hpw.1 c hc) hc2⟩

theorem spansDisjoint_symm (a b : ClozeSpan) (h : spansDisjoint a b) :
    spansDisjoint b a := Or.symm h

theorem descOK_of_validSpans (content : List Char) (spans : List ClozeSpan)
    (h : validSpans content spans) :
    DescOK content (sortClozesDesc spans) := by
  obtain ⟨hmem, hpw⟩ := h
  have hperm : (sortClozesDesc spans).Perm spans :=
    List.perm_insertionSort _ _
  have hsorted : (sortClozesDesc spans).Pairwise
      (fun a b => posKey b ≤ posKey a) :=
    List.sorted_insertionSort _ _
  have hdisj : (sortClozesDesc spans).Pairwise spansDisjoint :=
    (hperm.pairwise_iff fun {a b} h => spansDisjoint_symm a b h).mpr hpw
  refine descOK_of_sorted _ content
    (fun c hc => ?_)
    ?_
  · obtain ⟨h1, _, h3⟩ := hmem c (hperm.mem_iff.mp hc)
    exact ⟨h1, h3⟩
  · refine (hsorted.and hdisj).imp_of_mem (fun {a b} ha hb hab => ?_)
    rcases hab.2 with hd | hd
    · have hane : a.text.data ≠ [] := (hmem a (hperm.mem_iff.mp ha)).1
      have : 1 ≤ a.text.data.length := by
        cases hta : a.text.data
        · exact absurd hta hane
        · simp
      omega
    · exact hd

/-- C4 (amended).  With an empty span list the content is returned
unchanged; and whenever every span carries an explicit position at which
its nonempty text has its FIRST occurrence in the content, and the spans
are pairwise non-overlapping, the rewriter's output is exactly the
original content with each span's occurrence replaced by its
`\x7b\x7bc<id>::<text>\x7d\x7d` (or `...::<hint>`) marker — one inserted
marker per span, and restoring each replaced segment yields the original
content.  (Verbatim occurrence plus non-overlap alone, as the claim
states it, is not enough: see the counterexample.) -/
theorem claim_C4_cloze_roundtrip :
    (∀ content : String, process_cloze_content content [] = content) ∧
    (∀ (content : String) (spans : List ClozeSpan),
      validSpans content.data spans →
      (process_cloze_content content spans).data
        = renderDesc content.data (sortClozesDesc spans)) := by
  constructor
  · intro content; rfl
  · intro content spans h
    cases spans with
    | nil => rfl
    | cons c cs =>
      rw [process_cloze_content,
        if_neg (by simp : ¬(c :: cs).isEmpty = true)]
      show applySpans content.data (sortClozesDesc (c :: cs)) = _
      exact applySpans_renderDesc _ _ (descOK_of_validSpans _ _ h)

/-- C4 counterexample.  The spans `"a"` at position 3 and `"ab"` at
position 0 of `"ab a"` each occur verbatim at their positions and are
non-overlapping — the claim's premises — yet the first-occurrence
replacement marks the WRONG `"a"` (the one inside `"ab"`), after which
`"ab"` no longer occurs, so span 2's marker never appears in the output:
the output is `\x7b\x7bc1::a\x7d\x7db a`, not one marker per span. -/
theorem claim_C4_counterexample :
    (occursAt ("a".data) ("ab a".data) 3 ∧ occursAt ("ab".data) ("ab a".data) 0 ∧
      (3 + ("a".data).length ≤ 0 ∨ 0 + ("ab".data).length ≤ 3)) ∧
    (process_cloze_content "ab a"
        [{ id := 1, text := "a", position := some 3 },
         { id := 2, text := "ab", position := some 0 }]
      = "\x7b\x7bc1::a\x7d\x7db a") ∧
    occursIn ("\x7b\x7bc2::ab\x7d\x7d".data)
      ((process_cloze_content "ab a"
        [{ id := 1, text := "a", position := some 3 },
         { id := 2, text := "ab", position := some 0 }]).data) = false := by
  refine ⟨by decide, by decide, by decide⟩

/-- C4 witness: two hinted/unhinted spans at their first occurrences in a
concrete sentence. -/
theorem claim_C4_cloze_roundtrip_witness :
    (process_cloze_content "The sky is blue and grass is green"
      [{ id := 1, text := "blue", position := some 11 },
       { id := 2, text := "green", hint := some "color", position := some 29 }]).data
      = renderDesc ("The sky is blue and grass is green".data)
          (sortClozesDesc
            [{ id := 1, text := "blue", position := some 11 },
             { id := 2, text := "green", hint := some "color", position := some 29 }]) :=
  claim_C4_cloze_roundtrip.2 "The sky is blue and grass is green"
    [{ id := 1, text := "blue", position := some 11 },
     { id := 2, text := "green", hint := some "color", position := some 29 }]
    (by decide)

/-- Concrete evaluation of the rewriter on the witness input. -/
theorem process_cloze_content_example :
    process_cloze_content "The sky is blue and grass is green"
      [{ id := 1, text := "blue", position := some 11 },
       { id := 2, text := "green", hint := some "color", position := some 29 }]
      = "The sky is \x7b\x7bc1::blue\x7d\x7d and grass is \x7b\x7bc2::green::color\x7d\x7d" := by
  decide
